import Mathlib

/-!
# Verification of the procedural dungeon generator (`src/dungeonGenerator.ts`)

Shallow embedding of the dungeon generation core.  JavaScript numbers are
modelled exactly: integer-valued quantities as `ℤ`, fractional quantities as
`ℚ`, and the (irrational) values produced by `Math.sqrt` inside the spatial
separation force computation as `ℝ`.  Every numeric comparison the source
performs on a `Math.sqrt` distance is embedded as the equivalent comparison
of squared distances (`Real.sqrt` is strictly monotone on nonnegative reals,
and at the magnitudes the generator works with the IEEE-double rounding of
`Math.sqrt` cannot flip a strict comparison of distinct rational squares,
whose gaps are ≥ 1/4 while the double ulp is ~1e-14).

Stateful TypeScript methods become functions threading an explicit
`GenState`; object identity of `Room`s inside the generator's arrays is
represented positionally (list indices), which coincides with reference
identity because the embedded phases never hold two handles to one entry.
-/

namespace DG

set_option maxRecDepth 1000000

/-- `Math.floor` on an exact rational, written on the numerator/denominator
so that it evaluates inside the kernel (`jsFloor_eq` identifies it with
`Int.floor`). -/
def jsFloor (q : ℚ) : ℤ := q.num / (q.den : ℤ)

/-- `Math.ceil` on an exact rational. -/
def jsCeil (q : ℚ) : ℤ := -jsFloor (-q)

/-- Truncation toward zero, the rounding JavaScript's `%` applies to the
quotient. -/
def ratTrunc (q : ℚ) : ℤ := if 0 ≤ q then jsFloor q else jsCeil q

/-- JavaScript's `%` on numbers: remainder with the sign of the dividend. -/
def jsMod (x m : ℚ) : ℚ := x - m * (ratTrunc (x / m) : ℚ)

/-- One step of the linear congruential generator:
`this.seed = (this.seed * 9301 + 49297) % 233280` (SeededRandom, line 167). -/
def rngNext (s : ℚ) : ℚ := jsMod (s * 9301 + 49297) 233280

/-- `SeededRandom.random()`: advances the state and returns `seed / 233280`
together with the new state. -/
def randomVal (s : ℚ) : ℚ × ℚ :=
  let s' := rngNext s
  (s' / 233280, s')

/-- `SeededRandom.randomInt(min, max)`:
`Math.floor(this.random() * (max - min + 1)) + min`. -/
def randomInt (s : ℚ) (mn mx : ℤ) : ℤ × ℚ :=
  let (r, s') := randomVal s
  (jsFloor (r * ((mx : ℚ) - (mn : ℚ) + 1)) + mn, s')

/-- `SeededRandom.randomBool(probability)`: `this.random() < probability`. -/
def randomBool (s : ℚ) (p : ℚ) : Bool × ℚ :=
  let (r, s') := randomVal s
  (decide (r < p), s')

/-- The room kind: `'room' | 'corridor' | 'intersection'`. -/
inductive RoomType : Type where
  | room : RoomType
  | corridor : RoomType
  | intersection : RoomType
deriving DecidableEq, Repr

/-- Room identifiers.  The source uses strings: candidates get
`` `room_${i}` `` and synthetic corridor entities get
`` `corridor_${fromId}_${toId}` ``.  This string language is injectively
generated by the two constructors below (room ids contain exactly one
underscore, so the corridor concatenation is unambiguous), and the program
only ever compares ids for equality, so the inductive carrier is a faithful
model. -/
inductive RoomId : Type where
  | room : ℕ → RoomId
  | corridor : RoomId → RoomId → RoomId
deriving DecidableEq, Repr

/-- `Room` (dungeonGenerator.ts lines 67-88). -/
structure Room : Type where
  id : RoomId
  x : ℤ
  y : ℤ
  width : ℤ
  height : ℤ
  type : RoomType
  connectedTo : List RoomId
deriving DecidableEq, Repr

/-- `Door` (lines 93-102). -/
structure Door : Type where
  x : ℤ
  y : ℤ
  connectsRooms : RoomId × RoomId
deriving DecidableEq, Repr

/-- `DungeonConfig` (lines 32-62).  Tile counts are integers; the two
probability-like knobs are rationals; `seed` is optional. -/
structure DungeonConfig : Type where
  dungeonWidth : ℤ
  dungeonHeight : ℤ
  minRooms : ℤ
  maxRooms : ℤ
  minRoomSize : ℤ
  maxRoomSize : ℤ
  complexityLevel : ℚ
  corridorWidth : ℤ
  overlapChance : ℚ
  seed : Option ℚ
deriving DecidableEq, Repr

/-- `Partial<DungeonConfig>` as consumed by `updateConfig`: a field is
`some v` when present.  (Explicitly passing `undefined` for a field is not
modelled; no caller in the repository does that.) -/
structure PartialConfig : Type where
  dungeonWidth : Option ℤ := none
  dungeonHeight : Option ℤ := none
  minRooms : Option ℤ := none
  maxRooms : Option ℤ := none
  minRoomSize : Option ℤ := none
  maxRoomSize : Option ℤ := none
  complexityLevel : Option ℚ := none
  corridorWidth : Option ℤ := none
  overlapChance : Option ℚ := none
  seed : Option ℚ := none
deriving DecidableEq, Repr

/-- `{...config, ...newConfig}` in `updateConfig` (line 929). -/
def mergeConfig (cfg : DungeonConfig) (p : PartialConfig) : DungeonConfig where
  dungeonWidth := p.dungeonWidth.getD cfg.dungeonWidth
  dungeonHeight := p.dungeonHeight.getD cfg.dungeonHeight
  minRooms := p.minRooms.getD cfg.minRooms
  maxRooms := p.maxRooms.getD cfg.maxRooms
  minRoomSize := p.minRoomSize.getD cfg.minRoomSize
  maxRoomSize := p.maxRoomSize.getD cfg.maxRoomSize
  complexityLevel := p.complexityLevel.getD cfg.complexityLevel
  corridorWidth := p.corridorWidth.getD cfg.corridorWidth
  overlapChance := p.overlapChance.getD cfg.overlapChance
  seed := p.seed.or cfg.seed

/-- 2D tilemap, row major: `tilemap[y][x]`, 0 = wall, 1 = floor, 2 = door. -/
abbrev Tilemap := List (List ℤ)

/-- `DungeonData` (lines 107-131). -/
structure DungeonData : Type where
  width : ℤ
  height : ℤ
  roomCount : ℕ
  generationSeed : Option ℚ
  rooms : List Room
  tilemap : Tilemap
  doors : List Door
deriving DecidableEq, Repr

/-- Generator instance state: the mutable private fields of
`DungeonGenerator` (lines 190-195). -/
structure GenState : Type where
  config : DungeonConfig
  rng : ℚ
  rooms : List Room
  tilemap : Tilemap
  doors : List Door
  baseRooms : List Room
deriving DecidableEq, Repr

/-- `[a, b)` as a list of integers (empty when `b ≤ a`), used to embed the
`for` loops of the source. -/
def intRange (a b : ℤ) : List ℤ := (List.range (b - a).toNat).map fun (k : ℕ) => a + (k : ℤ)

/-- `isValidTile(x, y)` (lines 863-866). -/
def isValidTile (cfg : DungeonConfig) (x y : ℤ) : Bool :=
  decide (0 ≤ x) && decide (x < cfg.dungeonWidth) &&
  decide (0 ≤ y) && decide (y < cfg.dungeonHeight)

/-- Read `tilemap[y][x]` (total; every read in the source is guarded so the
default 0 is never observed). -/
def tileGet (tm : Tilemap) (x y : ℤ) : ℤ :=
  ((tm.getD y.toNat []).getD x.toNat 0)

/-- Write `tilemap[y][x] = v` (callers guard with `isValidTile`). -/
def tileSet (tm : Tilemap) (x y v : ℤ) : Tilemap :=
  tm.set y.toNat ((tm.getD y.toNat []).set x.toNat v)

/-- `initializeTilemap` (lines 295-299): height rows of width wall tiles. -/
def initializeTilemap (cfg : DungeonConfig) : Tilemap :=
  List.replicate cfg.dungeonHeight.toNat (List.replicate cfg.dungeonWidth.toNat 0)

/-- `calculateOverlap` (lines 385-391). -/
def calculateOverlap (r1 r2 : Room) : ℤ × ℤ :=
  (max 0 (min (r1.x + r1.width) (r2.x + r2.width) - max r1.x r2.x),
   max 0 (min (r1.y + r1.height) (r2.y + r2.height) - max r1.y r2.y))

/-- A room's fractional center `(x + width/2, y + height/2)`, as used by the
separation and selection phases. -/
def centerQ (r : Room) : ℚ × ℚ :=
  ((r.x : ℚ) + (r.width : ℚ) / 2, (r.y : ℚ) + (r.height : ℚ) / 2)

/-- Squared Euclidean distance.  The source calls
`calculateDistance = Math.sqrt(dx*dx+dy*dy)` and only ever compares the
results (or divides by them, inside the separation force, which is embedded
separately); comparisons of square roots of nonnegative rationals are
equivalent to comparisons of the radicands. -/
def distSq (p q : ℚ × ℚ) : ℚ := (p.1 - q.1) ^ 2 + (p.2 - q.2) ^ 2

/-- `getRoomCenter` (lines 579-584): integer center using `Math.floor`. -/
def getRoomCenter (r : Room) : ℤ × ℤ := (r.x + r.width.fdiv 2, r.y + r.height.fdiv 2)

/-- `getRoomCenter` as a rational point (for distance comparisons). -/
def centerZQ (r : Room) : ℚ × ℚ :=
  (((getRoomCenter r).1 : ℚ), ((getRoomCenter r).2 : ℚ))

/-- Candidate generation, first half of `generateRooms` (lines 305-322).
Returns the rolled room count, the candidate list and the advanced rng. -/
def genCandidates (cfg : DungeonConfig) (s : ℚ) : ℤ × List Room × ℚ :=
  let (roomCount, s) := randomInt s cfg.minRooms cfg.maxRooms
  let n := (roomCount * 3).toNat
  let step := fun (acc : List Room × ℚ) (i : ℕ) =>
    let (cands, s) := acc
    let (w, s) := randomInt s cfg.minRoomSize cfg.maxRoomSize
    let (h, s) := randomInt s cfg.minRoomSize cfg.maxRoomSize
    let (x, s) := randomInt s 1 (cfg.dungeonWidth - w - 1)
    let (y, s) := randomInt s 1 (cfg.dungeonHeight - h - 1)
    (cands ++ [{ id := RoomId.room i, x := x, y := y, width := w, height := h,
                 type := RoomType.room, connectedTo := [] }], s)
  let (cands, s) := (List.range n).foldl step ([], s)
  (roomCount, cands, s)

/-- The `(dx, dy)` of every repulsion term acting on candidate `i`
(inner `j` loop of `applySpatialSeparation`, lines 351-370), in loop
order. -/
def sepTerms (cands : List Room) (i : ℕ) : List (ℚ × ℚ) :=
  match cands[i]? with
  | none => []
  | some room =>
    (List.range cands.length).foldl (fun acc j =>
      if j = i then acc else
      match cands[j]? with
      | none => acc
      | some other =>
        let ov := calculateOverlap room other
        if 0 < ov.1 ∧ 0 < ov.2 then
          acc ++ [((centerQ room).1 - (centerQ other).1,
                   (centerQ room).2 - (centerQ other).2)]
        else acc) []

/-- One repulsion term `((dx/distance)*separationForce, (dy/distance)*...)`
with `distance = Math.sqrt(dx*dx + dy*dy) || 1` and `separationForce = 2`. -/
noncomputable def termForce (t : ℚ × ℚ) : ℝ × ℝ :=
  let dsq : ℚ := t.1 ^ 2 + t.2 ^ 2
  let dist : ℝ := if dsq = 0 then 1 else Real.sqrt (dsq : ℝ)
  ((t.1 : ℝ) / dist * 2, (t.2 : ℝ) / dist * 2)

/-- Accumulated `(forceX, forceY)` for one candidate. -/
noncomputable def forceOfTerms (ts : List (ℚ × ℚ)) : ℝ × ℝ :=
  ts.foldl (fun acc t => (acc.1 + (termForce t).1, acc.2 + (termForce t).2)) (0, 0)

/-- `Math.round`: round half toward positive infinity. -/
noncomputable def jsRound (x : ℝ) : ℤ := ⌊x + 1 / 2⌋

/-- `Math.max(lo, Math.min(hi, v))`. -/
def clampPos (lo hi v : ℤ) : ℤ := max lo (min hi v)

/-- One in-place update of candidate `i` inside an iteration of
`applySpatialSeparation` (lines 346-377): accumulate the repulsion force,
round, clamp into `[1, dim - size - 1]`. -/
noncomputable def sepStepAt (cfg : DungeonConfig) (cands : List Room) (i : ℕ) :
    List Room :=
  match cands[i]? with
  | none => cands
  | some room =>
    let f := forceOfTerms (sepTerms cands i)
    cands.set i
      { room with
        x := clampPos 1 (cfg.dungeonWidth - room.width - 1)
               (jsRound ((room.x : ℝ) + f.1)),
        y := clampPos 1 (cfg.dungeonHeight - room.height - 1)
               (jsRound ((room.y : ℝ) + f.2)) }

/-- One full iteration of the separation loop: candidates updated
sequentially in index order. -/
noncomputable def sepPass (cfg : DungeonConfig) (cands : List Room) : List Room :=
  (List.range cands.length).foldl (sepStepAt cfg) cands

/-- `applySpatialSeparation` (lines 341-379): 50 iterations. -/
noncomputable def applySpatialSeparation (cfg : DungeonConfig) (cands : List Room) :
    List Room :=
  (sepPass cfg)^[50] cands

/-- `(b.width*b.height) - (a.width*a.height)` comparator key. -/
def roomArea (r : Room) : ℤ := r.width * r.height

/-- Stable insertion keeping existing elements of equal or larger area in
front; together with left-to-right insertion this is the unique stable
descending-area sort, the behaviour ES2019 `Array.prototype.sort`
guarantees for the comparator at line 399. -/
def insertByAreaDesc (r : Room) : List Room → List Room
  | [] => [r]
  | x :: xs => if roomArea x < roomArea r then r :: x :: xs else x :: insertByAreaDesc r xs

/-- `candidates.sort((a, b) => (b.width*b.height) - (a.width*a.height))`. -/
def sortByAreaDesc (l : List Room) : List Room :=
  l.foldl (fun acc r => insertByAreaDesc r acc) []

/-- The `tooClose` distribution test of `selectBestRooms` (lines 408-419):
`distance < min(width, height) * 0.2`, embedded on squares. -/
def tooCloseTo (cfg : DungeonConfig) (c : Room) (sel : List Room) : Bool :=
  sel.any fun e =>
    decide (distSq (centerQ c) (centerQ e) <
      ((min cfg.dungeonWidth cfg.dungeonHeight : ℚ) * (1 / 5)) ^ 2)

/-- Main selection loop of `selectBestRooms` (lines 404-424). -/
def selectLoop (cfg : DungeonConfig) (target : ℤ) : List Room → List Room → List Room
  | [], sel => sel
  | c :: rest, sel =>
    if target ≤ (sel.length : ℤ) then sel
    else if tooCloseTo cfg c sel then selectLoop cfg target rest sel
    else selectLoop cfg target rest (sel ++ [c])

/-- The fill loop of `selectBestRooms` (lines 427-434): repeatedly push the
first candidate not already selected (`includes` is reference equality; all
reachable candidate lists have pairwise distinct entries, so value equality
coincides).  Fuel bounds the `while`; `sorted.length` steps suffice since
each successful pass grows `sel`. -/
def fillLoop (target : ℤ) (sorted : List Room) : ℕ → List Room → List Room
  | 0, sel => sel
  | fuel + 1, sel =>
    if (sel.length : ℤ) < target ∧ sel.length < sorted.length then
      match sorted.find? (fun c => ¬ sel.contains c) with
      | some c => fillLoop target sorted fuel (sel ++ [c])
      | none => sel
    else sel

/-- `selectBestRooms` (lines 397-437). -/
def selectBestRooms (cfg : DungeonConfig) (cands : List Room) (target : ℤ) :
    List Room :=
  let sorted := sortByAreaDesc cands
  fillLoop target sorted sorted.length (selectLoop cfg target sorted [])

/-- `attemptRoomMerge` (lines 469-495) on the rooms at positions `i < j`:
merge when the overlap is nonzero on both axes and strictly below 70% of the
smaller dimension on each axis; the first room becomes the union box and the
second is spliced out. -/
def attemptRoomMerge (rooms : List Room) (i j : ℕ) : List Room :=
  match rooms[i]?, rooms[j]? with
  | some r1, some r2 =>
    let ov := calculateOverlap r1 r2
    if 0 < ov.1 ∧ 0 < ov.2 ∧
       (ov.1 : ℚ) < (min r1.width r2.width : ℚ) * (7 / 10) ∧
       (ov.2 : ℚ) < (min r1.height r2.height : ℚ) * (7 / 10) then
      let minX := min r1.x r2.x
      let minY := min r1.y r2.y
      let maxX := max (r1.x + r1.width) (r2.x + r2.width)
      let maxY := max (r1.y + r1.height) (r2.y + r2.height)
      (rooms.set i { r1 with x := minX, y := minY,
                             width := maxX - minX, height := maxY - minY }).eraseIdx j
    else rooms
  | _, _ => rooms

/-- Inner `j` loop of `applyControlledOverlapping` (lines 457-461).  When a
merge removes index `j` the next examined index is still `j + 1` of the
shrunk array, exactly the index-skipping behaviour of the mutating source
loop. -/
def overlapInner (cfg : DungeonConfig) (i : ℕ) :
    ℕ → ℕ → List Room × ℚ → List Room × ℚ
  | 0, _, acc => acc
  | fuel + 1, j, (rooms, s) =>
    if j < rooms.length then
      let (b, s) := randomBool s (cfg.overlapChance * cfg.complexityLevel)
      let rooms := if b then attemptRoomMerge rooms i j else rooms
      overlapInner cfg i fuel (j + 1) (rooms, s)
    else (rooms, s)

/-- Outer `i` loop of `applyControlledOverlapping` (lines 456-462). -/
def overlapOuter (cfg : DungeonConfig) :
    ℕ → ℕ → List Room × ℚ → List Room × ℚ
  | 0, _, acc => acc
  | fuel + 1, i, (rooms, s) =>
    if i < rooms.length then
      overlapOuter cfg fuel (i + 1) (overlapInner cfg i (rooms.length + 1) (i + 1) (rooms, s))
    else (rooms, s)

/-- `applyControlledOverlapping` (lines 453-463). -/
def applyControlledOverlapping (cfg : DungeonConfig) (rooms : List Room) (s : ℚ) :
    List Room × ℚ :=
  if cfg.overlapChance ≤ 0 then (rooms, s)
  else overlapOuter cfg (rooms.length + 1) 0 (rooms, s)

/-- `carveRooms` for one room (lines 501-511): mark the in-bounds box as
floor. -/
def carveRoom (cfg : DungeonConfig) (tm : Tilemap) (r : Room) : Tilemap :=
  (intRange r.y (r.y + r.height)).foldl (fun tm y =>
    (intRange r.x (r.x + r.width)).foldl (fun tm x =>
      if isValidTile cfg x y then tileSet tm x y 1 else tm) tm) tm

/-- `carveRooms` (lines 501-511). -/
def carveRooms (cfg : DungeonConfig) (rooms : List Room) (tm : Tilemap) : Tilemap :=
  rooms.foldl (carveRoom cfg) tm

/-- `carveCorridor` (lines 766-783): around each path point carve the
square block of side `width` whose offsets run from `-halfWidth` to
`width - halfWidth - 1`, `halfWidth = Math.floor((width-1)/2)`. -/
def carveCorridor (cfg : DungeonConfig) (path : List (ℤ × ℤ)) (tm : Tilemap) :
    Tilemap :=
  let width := cfg.corridorWidth
  let halfWidth := (width - 1).fdiv 2
  path.foldl (fun tm p =>
    (intRange (-halfWidth) (width - halfWidth)).foldl (fun tm dy =>
      (intRange (-halfWidth) (width - halfWidth)).foldl (fun tm dx =>
        if isValidTile cfg (p.1 + dx) (p.2 + dy) then tileSet tm (p.1 + dx) (p.2 + dy) 1
        else tm) tm) tm) tm

/-- `isValidPathTile` (lines 873-888): the whole corridor footprint centred
at `(x, y)` must stay in bounds; walls never block. -/
def isValidPathTile (cfg : DungeonConfig) (x y : ℤ) : Bool :=
  let width := cfg.corridorWidth
  let halfWidth := (width - 1).fdiv 2
  (intRange (-halfWidth) (width - halfWidth)).all fun dy =>
    (intRange (-halfWidth) (width - halfWidth)).all fun dx =>
      isValidTile cfg (x + dx) (y + dy)

/-- A* search node (lines 144-151); `parent` links always point at already
closed (hence never again mutated) nodes, so the value chain models the
reference chain faithfully. -/
inductive PathNode : Type where
  | mk : ℤ → ℤ → ℚ → ℚ → ℚ → Option PathNode → PathNode

def PathNode.x : PathNode → ℤ | .mk v _ _ _ _ _ => v
def PathNode.y : PathNode → ℤ | .mk _ v _ _ _ _ => v
def PathNode.g : PathNode → ℚ | .mk _ _ v _ _ _ => v
def PathNode.h : PathNode → ℚ | .mk _ _ _ v _ _ => v
def PathNode.f : PathNode → ℚ | .mk _ _ _ _ v _ => v
def PathNode.parent : PathNode → Option PathNode | .mk _ _ _ _ _ v => v

/-- `heuristic` (lines 718-720): Manhattan distance. -/
def heuristic (a b : ℤ × ℤ) : ℚ := ((a.1 - b.1).natAbs : ℚ) + ((a.2 - b.2).natAbs : ℚ)

/-- `reconstructPath` (lines 749-759): follow parent links back to the
start, building the path start-first. -/
def reconstructPath : PathNode → List (ℤ × ℤ)
  | .mk x y _ _ _ none => [(x, y)]
  | .mk x y _ _ _ (some p) => reconstructPath p ++ [(x, y)]

/-- Index of the lowest-f node (lines 661-666): first strict minimum. -/
def findMinIdx (l : List PathNode) : ℕ :=
  (List.range l.length).foldl
    (fun ci i => if ((l.getD i (.mk 0 0 0 0 0 none)).f <
                     (l.getD ci (.mk 0 0 0 0 0 none)).f) then i else ci) 0

/-- The four neighbour offsets in source order: up, right, down, left. -/
def neighborDirs : List (ℤ × ℤ) := [(0, -1), (1, 0), (0, 1), (-1, 0)]

/-- Neighbour expansion (lines 678-708) for the current node. -/
def expandNeighbors (cfg : DungeonConfig) (tm : Tilemap) (endPt : ℤ × ℤ)
    (closed : List (ℤ × ℤ)) (cur : PathNode) (openSet : List PathNode) :
    List PathNode :=
  neighborDirs.foldl (fun openSet d =>
    let nx := cur.x + d.1
    let ny := cur.y + d.2
    if closed.contains (nx, ny) || !isValidPathTile cfg nx ny then openSet
    else
      let moveCost : ℚ := if tileGet tm nx ny = 1 then 1 / 2 else 1
      let tentativeG := cur.g + moveCost
      match (List.range openSet.length).find?
          (fun k => (openSet.getD k (.mk 0 0 0 0 0 none)).x = nx ∧
                    (openSet.getD k (.mk 0 0 0 0 0 none)).y = ny) with
      | none =>
        let h := heuristic (nx, ny) endPt
        openSet ++ [.mk nx ny tentativeG h (tentativeG + h) (some cur)]
      | some k =>
        let ex := openSet.getD k (.mk 0 0 0 0 0 none)
        if tentativeG < ex.g then
          openSet.set k (.mk ex.x ex.y tentativeG ex.h (tentativeG + ex.h) (some cur))
        else openSet) openSet

/-- The `while (openSet.length > 0)` loop of `findPath` (lines 659-709).
Each iteration closes a fresh coordinate, and only in-bounds coordinates
(plus the start) can be closed, so `width*height + 2` fuel is never
exhausted. -/
def astarLoop (cfg : DungeonConfig) (tm : Tilemap) (endPt : ℤ × ℤ) :
    ℕ → List PathNode → List (ℤ × ℤ) → List (ℤ × ℤ)
  | 0, _, _ => []
  | fuel + 1, openSet, closed =>
    match openSet with
    | [] => []
    | _ :: _ =>
      let ci := findMinIdx openSet
      let cur := openSet.getD ci (.mk 0 0 0 0 0 none)
      let openSet := openSet.eraseIdx ci
      let closed := closed ++ [(cur.x, cur.y)]
      if cur.x = endPt.1 ∧ cur.y = endPt.2 then reconstructPath cur
      else astarLoop cfg tm endPt fuel
        (expandNeighbors cfg tm endPt closed cur openSet) closed

/-- `findPath` (lines 644-712). -/
def findPath (cfg : DungeonConfig) (tm : Tilemap) (s e : ℤ × ℤ) : List (ℤ × ℤ) :=
  let h := heuristic s e
  astarLoop cfg tm e ((cfg.dungeonWidth * cfg.dungeonHeight).toNat + 2)
    [.mk s.1 s.2 0 h (0 + h) none] []

instance : Inhabited Room :=
  ⟨{ id := .room 0, x := 0, y := 0, width := 0, height := 0,
     type := .room, connectedTo := [] }⟩

/-- The symmetric adjacency update of lines 567-568 / 604-605 on the rooms
at positions `a` and `b`: push each other's id. -/
def pushEdge (rooms : List Room) (a b : ℕ) : List Room :=
  match rooms[a]?, rooms[b]? with
  | some ra, some rb =>
    let rooms := rooms.set a { ra with connectedTo := ra.connectedTo ++ [rb.id] }
    match rooms[b]? with
    | some rb2 => rooms.set b { rb2 with connectedTo := rb2.connectedTo ++ [ra.id] }
    | none => rooms
  | _, _ => rooms

/-- Squared center distance between the rooms at two positions. -/
def centerDistSq (rooms : List Room) (a b : ℕ) : ℚ :=
  distSq (centerZQ (rooms.getD a default)) (centerZQ (rooms.getD b default))

/-- All (connected, unconnected) index pairs in the scan order of lines
547-560: outer loop over the connected set in insertion order, inner loop
over `this.rooms` in list order. -/
def mstPairs (rooms : List Room) (connected : List ℕ) : List (ℕ × ℕ) :=
  connected.foldl (fun acc a =>
    acc ++ ((List.range rooms.length).filter fun b => ¬ connected.contains b).map
      fun b => (a, b)) []

/-- First strict minimum of the scanned pairs (`distance <
shortestConnection.distance`, line 556). -/
def findShortest (rooms : List Room) (connected : List ℕ) : Option (ℕ × ℕ) :=
  ((mstPairs rooms connected).foldl (fun best p =>
    let d := centerDistSq rooms p.1 p.2
    match best with
    | none => some (p, d)
    | some (_, dq) => if d < dq then some (p, d) else best) none).map (·.1)

/-- The `while (connected.size < this.rooms.length)` loop of
`generateMinimumSpanningTree` (lines 543-570). -/
def mstLoop : ℕ → List Room → List ℕ → List (ℕ × ℕ) → List Room × List (ℕ × ℕ)
  | 0, rooms, _, conns => (rooms, conns)
  | fuel + 1, rooms, connected, conns =>
    if connected.length < rooms.length then
      match findShortest rooms connected with
      | some (a, b) =>
        mstLoop fuel (pushEdge rooms a b) (connected ++ [b]) (conns ++ [(a, b)])
      | none => (rooms, conns)
    else (rooms, conns)

/-- `generateMinimumSpanningTree` (lines 536-573); the connected set starts
as `{rooms[0]}`. -/
def generateMinimumSpanningTree (rooms : List Room) : List Room × List (ℕ × ℕ) :=
  mstLoop (rooms.length + 1) rooms [0] []

/-- `addComplexityConnections` (lines 590-608):
`floor(rooms.length * complexityLevel)` attempts at random extra edges,
skipping identical or already connected pairs. -/
def addComplexityConnections (cfg : DungeonConfig) (rooms : List Room)
    (conns : List (ℕ × ℕ)) (s : ℚ) : List Room × List (ℕ × ℕ) × ℚ :=
  let n := (jsFloor ((rooms.length : ℚ) * cfg.complexityLevel)).toNat
  (List.range n).foldl (fun acc _ =>
    let (rooms, conns, s) := acc
    let (i1z, s) := randomInt s 0 ((rooms.length : ℤ) - 1)
    let (i2z, s) := randomInt s 0 ((rooms.length : ℤ) - 1)
    let i1 := i1z.toNat
    let i2 := i2z.toNat
    if i1 ≠ i2 ∧ ¬ ((rooms.getD i2 default).id ∈ (rooms.getD i1 default).connectedTo) then
      (pushEdge rooms i1 i2, conns ++ [(i1, i2)], s)
    else (rooms, conns, s)) (rooms, conns, s)

/-- `generateCorridor` (lines 614-638) for the connection `(a, b)`:
find a path between the two room centers, carve it, and if it is longer
than 4 points append a synthetic corridor entity linked to both rooms. -/
def generateCorridor (cfg : DungeonConfig) (rooms : List Room) (tm : Tilemap)
    (a b : ℕ) : List Room × Tilemap :=
  let fromRoom := rooms.getD a default
  let toRoom := rooms.getD b default
  let s := getRoomCenter fromRoom
  let e := getRoomCenter toRoom
  let path := findPath cfg tm s e
  if 0 < path.length then
    let tm := carveCorridor cfg path tm
    if 4 < path.length then
      (rooms ++ [{ id := RoomId.corridor fromRoom.id toRoom.id,
                   x := min s.1 e.1, y := min s.2 e.2,
                   width := ((e.1 - s.1).natAbs : ℤ) + cfg.corridorWidth,
                   height := ((e.2 - s.2).natAbs : ℤ) + cfg.corridorWidth,
                   type := RoomType.corridor,
                   connectedTo := [fromRoom.id, toRoom.id] }], tm)
    else (rooms, tm)
  else (rooms, tm)

/-- `connectRooms` (lines 517-530). -/
def connectRooms (st : GenState) : GenState :=
  if st.rooms.length < 2 then st
  else
    let mst := generateMinimumSpanningTree st.rooms
    let extra := addComplexityConnections st.config mst.1 mst.2 st.rng
    let final := extra.2.1.foldl
      (fun acc c => generateCorridor st.config acc.1 acc.2 c.1 c.2)
      (extra.1, st.tilemap)
    { st with rooms := final.1, tilemap := final.2, rng := extra.2.2 }

/-- `isValidDoorLocation` (lines 894-912): in bounds with an orthogonally
adjacent floor tile. -/
def isValidDoorLocation (cfg : DungeonConfig) (tm : Tilemap) (p : ℤ × ℤ) : Bool :=
  isValidTile cfg p.1 p.2 &&
  neighborDirs.any fun d =>
    isValidTile cfg (p.1 + d.1) (p.2 + d.2) && decide (tileGet tm (p.1 + d.1) (p.2 + d.2) = 1)

/-- `findDoorCandidates` (lines 820-836): interior perimeter tiles (corners
excluded), top/bottom interleaved then left/right interleaved, filtered for
validity against the current tilemap. -/
def findDoorCandidates (cfg : DungeonConfig) (tm : Tilemap) (room : Room) :
    List (ℤ × ℤ) :=
  let tops := (intRange (room.x + 1) (room.x + room.width - 1)).foldl
    (fun acc x => acc ++ [(x, room.y), (x, room.y + room.height - 1)]) []
  let sides := (intRange (room.y + 1) (room.y + room.height - 1)).foldl
    (fun acc y => acc ++ [(room.x, y), (room.x + room.width - 1, y)]) []
  (tops ++ sides).filter (isValidDoorLocation cfg tm)

/-- `findBestDoorLocation` (lines 842-857): first strict minimum of the
distance to the connected room's center (`Infinity` start means the first
candidate is always taken). -/
def findBestDoorLocation (room2 : Room) (cands : List (ℤ × ℤ)) : Option (ℤ × ℤ) :=
  let c2 := centerZQ room2
  (cands.foldl (fun best p =>
    let d := distSq ((p.1 : ℚ), (p.2 : ℚ)) c2
    match best with
    | none => some (p, d)
    | some (_, dq) => if d < dq then some (p, d) else best) none).map (·.1)

/-- Door placement for one room (body of the outer loop of `placeDoors`,
lines 790-813): candidates are computed once per room against the tilemap
as it stands when the room is reached. -/
def placeDoorsForRoom (cfg : DungeonConfig) (rooms : List Room) (room : Room)
    (acc : Tilemap × List Door) : Tilemap × List Door :=
  if room.type ≠ RoomType.room then acc
  else
    let cands := findDoorCandidates cfg acc.1 room
    room.connectedTo.foldl (fun acc cid =>
      match rooms.find? (fun r => r.id == cid) with
      | none => acc
      | some cr =>
        match findBestDoorLocation cr cands with
        | none => acc
        | some p =>
          (tileSet acc.1 p.1 p.2 2,
           acc.2 ++ [{ x := p.1, y := p.2, connectsRooms := (room.id, cr.id) }])) acc

/-- `placeDoors` (lines 789-814). -/
def placeDoors (st : GenState) : GenState :=
  let acc := st.rooms.foldl (fun acc room => placeDoorsForRoom st.config st.rooms room acc)
    (st.tilemap, st.doors)
  { st with tilemap := acc.1, doors := acc.2 }

/-- `generateRooms` (lines 305-335) on the generator state. -/
noncomputable def generateRooms (st : GenState) : GenState :=
  let gc := genCandidates st.config st.rng
  let seped := applySpatialSeparation st.config gc.2.1
  let sel := selectBestRooms st.config seped gc.1
  let merged := applyControlledOverlapping st.config sel gc.2.2
  { st with rooms := merged.1, rng := merged.2,
            tilemap := carveRooms st.config merged.1 st.tilemap }

/-- `saveBaseRooms` (lines 258-265). -/
def saveBaseRooms (rooms : List Room) : List Room :=
  (rooms.filter fun r => r.type == RoomType.room).map fun r => { r with connectedTo := [] }

/-- `generate` (lines 225-252). -/
noncomputable def generate (preserveBaseRooms : Bool) (st : GenState) :
    DungeonData × GenState :=
  let st := { st with rooms := [], doors := [], tilemap := initializeTilemap st.config }
  let st :=
    if preserveBaseRooms ∧ 0 < st.baseRooms.length then
      let rooms := st.baseRooms.map fun r => { r with connectedTo := [] }
      { st with rooms := rooms, tilemap := carveRooms st.config rooms st.tilemap }
    else
      let st := generateRooms st
      { st with baseRooms := saveBaseRooms st.rooms }
  let st := connectRooms st
  let st := placeDoors st
  ({ width := st.config.dungeonWidth, height := st.config.dungeonHeight,
     roomCount := (st.rooms.filter fun r => r.type == RoomType.room).length,
     generationSeed := st.config.seed,
     rooms := st.rooms, tilemap := st.tilemap, doors := st.doors }, st)

/-- The constructor (lines 202-217): seeds the random source once from
`config.seed`, falling back to `Date.now()` (the `now` parameter). -/
def mkGenerator (cfg : DungeonConfig) (now : ℚ) : GenState :=
  { config := cfg, rng := cfg.seed.getD now,
    rooms := [], tilemap := [], doors := [], baseRooms := [] }

/-- `updateConfig` (lines 928-936): merge, re-seed the random source from
the merged config unconditionally, clear the base-room cache only when the
partial update carries a seed. -/
def updateConfig (p : PartialConfig) (now : ℚ) (st : GenState) : GenState :=
  let config := mergeConfig st.config p
  { st with config := config, rng := config.seed.getD now,
            baseRooms := if p.seed.isSome then [] else st.baseRooms }

/-- `clearBaseRooms` (lines 942-944). -/
def clearBaseRooms (st : GenState) : GenState := { st with baseRooms := [] }

/-- `hasBaseRooms` (lines 951-953). -/
def hasBaseRooms (st : GenState) : Bool := 0 < st.baseRooms.length

/-! ## Auxiliary definitions for the verification -/

/-- A candidate position is inside the clamp range of its own size. -/
def inClampRange (cfg : DungeonConfig) (r : Room) : Prop :=
  1 ≤ r.x ∧ r.x ≤ cfg.dungeonWidth - r.width - 1 ∧
  1 ≤ r.y ∧ r.y ≤ cfg.dungeonHeight - r.height - 1

instance (cfg : DungeonConfig) (r : Room) : Decidable (inClampRange cfg r) := by
  unfold inClampRange
  infer_instance

/-- Executable fixed-point test for the separation: no candidate feels any
repulsion and every candidate already sits inside its clamp range. -/
def sepFixedCheck (cfg : DungeonConfig) (cands : List Room) : Bool :=
  (List.range cands.length).all fun i =>
    decide (sepTerms cands i = []) &&
    (match cands[i]? with
     | none => true
     | some r => decide (inClampRange cfg r))

/-- Move a candidate to `(1, 1)` (the forced clamp outcome for oversized
rooms). -/
def setPos11 (r : Room) : Room := { r with x := 1, y := 1 }

/-- Executable test that every candidate's clamp range is degenerate. -/
def clampedCheck (cfg : DungeonConfig) (cands : List Room) : Bool :=
  cands.all fun r =>
    decide (cfg.dungeonWidth - r.width - 1 ≤ 1) &&
    decide (cfg.dungeonHeight - r.height - 1 ≤ 1)

/-- Forget the adjacency list of a room (also the body of the `map` in
`saveBaseRooms`/`restoreBaseRooms`). -/
def stripConn (r : Room) : Room := { r with connectedTo := [] }

/-- The id/bounds view of a room used by the preservation claims. -/
def roomShape (r : Room) : RoomId × ℤ × ℤ × ℤ × ℤ :=
  (r.id, r.x, r.y, r.width, r.height)

/-- `generateRooms` with the (noncomputable) separation result supplied as
an argument; used, with `generate_given`, to evaluate concrete runs once
the separation outcome has been established by lemmas. -/
def generateRoomsGiven (st : GenState) (seped : List Room) : GenState :=
  let gc := genCandidates st.config st.rng
  let sel := selectBestRooms st.config seped gc.1
  let merged := applyControlledOverlapping st.config sel gc.2.2
  { st with rooms := merged.1, rng := merged.2,
            tilemap := carveRooms st.config merged.1 st.tilemap }

/-- `generate` with the separation result supplied as an argument. -/
def generateGiven (preserveBaseRooms : Bool) (st : GenState) (seped : List Room) :
    DungeonData × GenState :=
  let st := { st with rooms := [], doors := [], tilemap := initializeTilemap st.config }
  let st :=
    if preserveBaseRooms ∧ 0 < st.baseRooms.length then
      let rooms := st.baseRooms.map fun r => { r with connectedTo := [] }
      { st with rooms := rooms, tilemap := carveRooms st.config rooms st.tilemap }
    else
      let st := generateRoomsGiven st seped
      { st with baseRooms := saveBaseRooms st.rooms }
  let st := connectRooms st
  let st := placeDoors st
  ({ width := st.config.dungeonWidth, height := st.config.dungeonHeight,
     roomCount := (st.rooms.filter fun r => r.type == RoomType.room).length,
     generationSeed := st.config.seed,
     rooms := st.rooms, tilemap := st.tilemap, doors := st.doors }, st)

/-- Tilemap well-formedness: the configured number of rows and columns. -/
def tilemapWF (cfg : DungeonConfig) (tm : Tilemap) : Prop :=
  tm.length = cfg.dungeonHeight.toNat ∧
  ∀ row ∈ tm, row.length = cfg.dungeonWidth.toNat

instance (cfg : DungeonConfig) (tm : Tilemap) : Decidable (tilemapWF cfg tm) := by
  unfold tilemapWF
  infer_instance

/-- Membership of `(x, y)` in the carved block of side `width` around path
point `p`: `floor((width-1)/2)` tiles before the point and
`width - floor((width-1)/2)` tiles at/after it on each axis. -/
def inBlock (width : ℤ) (p : ℤ × ℤ) (x y : ℤ) : Prop :=
  p.1 - (width - 1).fdiv 2 ≤ x ∧ x < p.1 + (width - (width - 1).fdiv 2) ∧
  p.2 - (width - 1).fdiv 2 ≤ y ∧ y < p.2 + (width - (width - 1).fdiv 2)

instance (width : ℤ) (p : ℤ × ℤ) (x y : ℤ) : Decidable (inBlock width p x y) := by
  unfold inBlock
  infer_instance

/-- Write floor (guarded by bounds) at every listed point, in order: the
flattened form of the carving loops. -/
def writeList (cfg : DungeonConfig) (pts : List (ℤ × ℤ)) (tm : Tilemap) : Tilemap :=
  pts.foldl (fun tm q => if isValidTile cfg q.1 q.2 then tileSet tm q.1 q.2 1 else tm) tm

/-- The points of the square block carved around one path point, in the
loop order of `carveCorridor` (dy-major). -/
def blockPts (cfg : DungeonConfig) (p : ℤ × ℤ) : List (ℤ × ℤ) :=
  let width := cfg.corridorWidth
  let halfWidth := (width - 1).fdiv 2
  (intRange (-halfWidth) (width - halfWidth)).flatMap fun dy =>
    (intRange (-halfWidth) (width - halfWidth)).map fun dx => (p.1 + dx, p.2 + dy)

/-- A 5×5 map with 2-wide corridors (C8 witness). -/
def cfgCarve : DungeonConfig :=
  { dungeonWidth := 5, dungeonHeight := 5, minRooms := 1, maxRooms := 1,
    minRoomSize := 1, maxRoomSize := 1, complexityLevel := 0, corridorWidth := 2,
    overlapChance := 0, seed := some 0 }

/-! ### Reference-semantics model of the snapshot construction (C4)

`generate` ends with `rooms: [...this.rooms], tilemap: this.tilemap.map(row
=> [...row]), doors: [...this.doors]` (lines 248-250).  In JavaScript the
array spread copies the array of object references while the referenced
`Room`/`Door` objects stay shared.  Heap cells are addressed by position;
an array of rooms in the program is a list of addresses here. -/

structure Heap : Type where
  objs : List Room
deriving DecidableEq

def Heap.read (h : Heap) (r : ℕ) : Room := h.objs.getD r default

def Heap.write (h : Heap) (r : ℕ) (v : Room) : Heap := ⟨h.objs.set r v⟩

/-- The reference content of the generator relevant to the snapshot. -/
structure GenRefs : Type where
  roomRefs : List ℕ
  tilemap : Tilemap
deriving DecidableEq

/-- `rooms: [...this.rooms]` builds a fresh array holding the same
references; `tilemap: this.tilemap.map(row => [...row])` copies rows by
value. -/
def snapshotOf (g : GenRefs) : GenRefs :=
  { roomRefs := g.roomRefs.map (fun r => r),
    tilemap := g.tilemap.map (fun row => row.map (fun t => t)) }

/-! ### Concrete configurations used by the claims -/

/-- Scenario A of the specification (C3). -/
def cfgScenA : DungeonConfig :=
  { dungeonWidth := 20, dungeonHeight := 20, minRooms := 3, maxRooms := 3,
    minRoomSize := 4, maxRoomSize := 4, complexityLevel := 0, corridorWidth := 1,
    overlapChance := 0, seed := some 42 }

/-- A fixed-seed configuration witnessing that repeated `generate()` calls
differ (C1): one 1×1 room in a 12×12 map, seed 1. -/
def cfgRepeat : DungeonConfig :=
  { dungeonWidth := 12, dungeonHeight := 12, minRooms := 1, maxRooms := 1,
    minRoomSize := 1, maxRoomSize := 1, complexityLevel := 0, corridorWidth := 1,
    overlapChance := 0, seed := some 1 }

/-- Configuration whose generated dungeon contains a synthetic corridor
entity (C2): two 1×1 rooms in a 12×12 map, seed 29. -/
def cfgSym : DungeonConfig :=
  { dungeonWidth := 12, dungeonHeight := 12, minRooms := 2, maxRooms := 2,
    minRoomSize := 1, maxRoomSize := 1, complexityLevel := 0, corridorWidth := 1,
    overlapChance := 0, seed := some 29 }

/-- Configuration where the first call rolls zero rooms (C5):
`minRooms = 0`, `maxRooms = 1`, seed 0. -/
def cfgPreserve : DungeonConfig :=
  { dungeonWidth := 12, dungeonHeight := 12, minRooms := 0, maxRooms := 1,
    minRoomSize := 1, maxRoomSize := 1, complexityLevel := 0, corridorWidth := 1,
    overlapChance := 0, seed := some 0 }

/-- Valid-per-the-claim configuration (min ≤ max, a minimum-size room with a
1-tile margin fits) whose maximum room size exceeds the map (C6). -/
def cfgBounds : DungeonConfig :=
  { dungeonWidth := 10, dungeonHeight := 10, minRooms := 1, maxRooms := 1,
    minRoomSize := 8, maxRoomSize := 30, complexityLevel := 0, corridorWidth := 1,
    overlapChance := 0, seed := some 42 }

/-- A 4×4 Scenario-A candidate with its id index. -/
def scenRoom (i : ℕ) (x y : ℤ) : Room :=
  { id := RoomId.room i, x := x, y := y, width := 4, height := 4,
    type := RoomType.room, connectedTo := [] }

/-- A list of Scenario-A candidates from their positions. -/
def scenList (ps : List (ℤ × ℤ)) : List Room :=
  ps.enum.map fun p => scenRoom p.1 p.2.1 p.2.2

/-- The nine candidates Scenario A rolls (seed 42). -/
def scenA0 : List Room :=
  scenList [(12,9),(1,11),(5,12),(14,3),(13,3),(8,11),(12,7),(14,8),(3,6)]

/-- Scenario A: intermediate candidate lists inside separation pass 0. -/
def scenM1 : List Room :=
  scenList [(10,12),(1,11),(5,12),(14,3),(13,3),(8,11),(12,7),(14,8),(3,6)]

def scenM2 : List Room :=
  scenList [(10,12),(1,11),(3,13),(14,3),(13,3),(8,11),(12,7),(14,8),(3,6)]

def scenM3 : List Room :=
  scenList [(10,12),(1,11),(3,13),(15,3),(13,3),(8,11),(12,7),(14,8),(3,6)]

def scenM4 : List Room :=
  scenList [(10,12),(1,11),(3,13),(15,3),(11,3),(8,11),(12,7),(14,8),(3,6)]

def scenM5 : List Room :=
  scenList [(10,12),(1,11),(3,13),(15,3),(11,3),(6,10),(12,7),(14,8),(3,6)]

/-- Scenario A: the candidates after separation pass 0. -/
def scenA1 : List Room :=
  scenList [(10,12),(1,11),(3,13),(15,3),(11,3),(6,10),(10,6),(14,8),(3,6)]

/-- Scenario A: intermediate candidate lists inside separation pass 1. -/
def scenN1 : List Room :=
  scenList [(10,12),(1,10),(3,13),(15,3),(11,3),(6,10),(10,6),(14,8),(3,6)]

def scenN2 : List Room :=
  scenList [(10,12),(1,10),(3,15),(15,3),(11,3),(6,10),(10,6),(14,8),(3,6)]

/-- Scenario A: the candidates after separation pass 1. -/
def scenA2 : List Room :=
  scenList [(10,12),(1,10),(3,15),(15,3),(12,1),(6,10),(10,6),(14,8),(3,6)]

/-- Scenario A: intermediate candidate list inside separation pass 2. -/
def scenP1 : List Room :=
  scenList [(10,12),(1,10),(3,15),(15,4),(12,1),(6,10),(10,6),(14,8),(3,6)]

/-- Scenario A: the candidates after separation pass 2, the separation
fixed point. -/
def scenA3 : List Room :=
  scenList [(10,12),(1,10),(3,15),(15,4),(11,1),(6,10),(10,6),(14,8),(3,6)]

/-- A 1×1 map used to exhibit a failed pathfinding search (C9 witness). -/
def cfgTiny : DungeonConfig :=
  { dungeonWidth := 1, dungeonHeight := 1, minRooms := 1, maxRooms := 1,
    minRoomSize := 1, maxRoomSize := 1, complexityLevel := 0, corridorWidth := 1,
    overlapChance := 0, seed := some 0 }

/-- Room bounds inside the map, as the containment claim states them. -/
def roomInMap (cfg : DungeonConfig) (r : Room) : Prop :=
  0 ≤ r.x ∧ r.x + r.width ≤ cfg.dungeonWidth ∧
  0 ≤ r.y ∧ r.y + r.height ≤ cfg.dungeonHeight

/-- The id/type/connections view of a room: everything the connectivity
phases read and write except the geometry. -/
def projMeta (r : Room) : RoomId × RoomType × List RoomId :=
  (r.id, r.type, r.connectedTo)

/-- Index form of "all ids are pairwise distinct". -/
def idInj (l : List Room) : Prop :=
  ∀ i j : ℕ, ∀ ri rj : Room, l[i]? = some ri → l[j]? = some rj →
    ri.id = rj.id → i = j

/-- Index form of the symmetry of `connectedTo`. -/
def symmIdx (l : List Room) : Prop :=
  ∀ i j : ℕ, ∀ ri rj : Room, l[i]? = some ri → l[j]? = some rj →
    rj.id ∈ ri.connectedTo → ri.id ∈ rj.connectedTo

/-- The shape of a freshly generated room list: pairwise distinct ids,
Room kind everywhere, no connections yet. -/
def roomsWF (l : List Room) : Prop :=
  (l.map (fun r => r.id)).Nodup ∧
  ∀ r ∈ l, r.type = RoomType.room ∧ r.connectedTo = []

/-! ## Basic list and rounding lemmas -/

attribute [local semireducible] Rat.add Rat.mul Rat.sub Rat.inv Rat.ofScientific

theorem jsFloor_eq (q : ℚ) : jsFloor q = ⌊q⌋ := Rat.floor_def.symm

theorem jsCeil_eq (q : ℚ) : jsCeil q = ⌈q⌉ := by
  rw [jsCeil, jsFloor_eq, ← Int.ceil_neg, neg_neg]

theorem list_set_self {α : Type} {l : List α} {i : ℕ} {a : α} (h : l[i]? = some a) :
    l.set i a = l := by
  induction l generalizing i with
  | nil => simp at h
  | cons x xs ih =>
    cases i with
    | zero => simp_all
    | succ n =>
      simp only [List.getElem?_cons_succ] at h
      simp [ih h]

theorem jsRound_eq {v : ℝ} {k : ℤ} (h1 : (k : ℝ) ≤ v + 1 / 2) (h2 : v + 1 / 2 < k + 1) :
    jsRound v = k := by
  unfold jsRound
  exact Int.floor_eq_iff.mpr ⟨h1, h2⟩

theorem jsRound_intCast (x : ℤ) : jsRound (x : ℝ) = x := by
  apply jsRound_eq <;> norm_num

theorem forceOfTerms_nil : forceOfTerms [] = (0, 0) := rfl

theorem clampPos_of_le {lo hi v : ℤ} (h1 : lo ≤ v) (h2 : v ≤ hi) :
    clampPos lo hi v = v := by
  unfold clampPos
  omega

theorem clampPos_of_hi_le {lo hi : ℤ} (v : ℤ) (h : hi ≤ lo) :
    clampPos lo hi v = lo := by
  unfold clampPos
  omega

/-! ## Separation fixed-point lemmas -/

theorem sepStepAt_id {cfg : DungeonConfig} {cands : List Room} {i : ℕ}
    (h1 : sepTerms cands i = [])
    (h2 : ∀ r, cands[i]? = some r → inClampRange cfg r) :
    sepStepAt cfg cands i = cands := by
  unfold sepStepAt
  cases hc : cands[i]? with
  | none => rfl
  | some r =>
    obtain ⟨hx1, hx2, hy1, hy2⟩ := h2 r hc
    simp only [h1, forceOfTerms_nil]
    rw [show ((r.x : ℝ) + (0, 0).1) = ((r.x : ℤ) : ℝ) by norm_num,
        show ((r.y : ℝ) + (0, 0).2) = ((r.y : ℤ) : ℝ) by norm_num,
        jsRound_intCast, jsRound_intCast,
        clampPos_of_le hx1 hx2, clampPos_of_le hy1 hy2]
    exact list_set_self hc

theorem foldl_id {α β : Type} {f : α → β → α} {c : α} {l : List β}
    (h : ∀ b ∈ l, f c b = c) : l.foldl f c = c := by
  induction l with
  | nil => rfl
  | cons x xs ih =>
    rw [List.foldl_cons, h x (by simp)]
    exact ih fun b hb => h b (by simp [hb])

theorem sepPass_id {cfg : DungeonConfig} {cands : List Room}
    (h : sepFixedCheck cfg cands = true) : sepPass cfg cands = cands := by
  unfold sepPass
  apply foldl_id
  intro i hi
  unfold sepFixedCheck at h
  rw [List.all_eq_true] at h
  have hh := h i hi
  rw [Bool.and_eq_true] at hh
  apply sepStepAt_id (by simpa using hh.1)
  intro r hr
  have := hh.2
  rw [hr] at this
  simpa using this

theorem applySep_of_fixed {cfg : DungeonConfig} {cands : List Room}
    (h : sepFixedCheck cfg cands = true) :
    applySpatialSeparation cfg cands = cands :=
  Function.iterate_fixed (sepPass_id h) 50

/-! ## Separation under a degenerate clamp range

When every candidate is too large for the map (`dim - size - 1 ≤ 1`), the
clamp `max(1, min(dim - size - 1, ·))` forces the position to `1` whatever
the (irrational) accumulated force was, so a whole separation pass moves
every candidate to `(1, 1)` without the force values ever mattering. -/

theorem sepStepAt_clamped {cfg : DungeonConfig} {cands : List Room} {i : ℕ} {r : Room}
    (hc : cands[i]? = some r)
    (h1 : cfg.dungeonWidth - r.width - 1 ≤ 1)
    (h2 : cfg.dungeonHeight - r.height - 1 ≤ 1) :
    sepStepAt cfg cands i = cands.set i (setPos11 r) := by
  unfold sepStepAt
  rw [hc]
  simp only [clampPos_of_hi_le _ h1, clampPos_of_hi_le _ h2]
  rfl

theorem sepPass_clamped {cfg : DungeonConfig} {cands : List Room}
    (h : clampedCheck cfg cands = true) :
    sepPass cfg cands = cands.map setPos11 := by
  unfold clampedCheck at h
  rw [List.all_eq_true] at h
  have key : ∀ k : ℕ,
      ((List.range k).foldl (sepStepAt cfg) cands).length = cands.length ∧
      ∀ j : ℕ, ((List.range k).foldl (sepStepAt cfg) cands)[j]? =
        if j < k then (cands[j]?).map setPos11 else cands[j]? := by
    intro k
    induction k with
    | zero => simp
    | succ k ih =>
      rw [List.range_succ, List.foldl_append, List.foldl_cons, List.foldl_nil]
      set S := (List.range k).foldl (sepStepAt cfg) cands with hS
      obtain ⟨ihlen, ihget⟩ := ih
      by_cases hk : k < cands.length
      · cases hr : cands[k]? with
        | none => exact absurd (List.getElem?_eq_none_iff.mp hr) (by omega)
        | some r =>
          have hSk : S[k]? = some r := by rw [ihget k]; simp [hr]
          have hmem : r ∈ cands := List.getElem?_mem hr
          have hcl := h r hmem
          rw [Bool.and_eq_true, decide_eq_true_eq, decide_eq_true_eq] at hcl
          rw [sepStepAt_clamped hSk hcl.1 hcl.2]
          refine ⟨by simpa using ihlen, fun j => ?_⟩
          rcases eq_or_ne j k with rfl | hjk
          · rw [List.getElem?_set_self (by omega), hr]
            simp
          · rw [List.getElem?_set_ne hjk.symm, ihget j]
            rcases lt_trichotomy j k with hlt | rfl | hgt
            · rw [if_pos hlt, if_pos (by omega)]
            · omega
            · rw [if_neg (by omega), if_neg (by omega)]
      · have hSk : S[k]? = none := by
          rw [ihget k]
          have hnone : cands[k]? = none := List.getElem?_eq_none (by omega)
          simp [hnone]
        have hid : sepStepAt cfg S k = S := by unfold sepStepAt; rw [hSk]
        rw [hid]
        refine ⟨ihlen, fun j => ?_⟩
        rw [ihget j]
        rcases lt_trichotomy j k with hlt | rfl | hgt
        · rw [if_pos hlt, if_pos (by omega)]
        · have hnone : cands[j]? = none := List.getElem?_eq_none (by omega)
          rw [if_neg (by omega), if_pos (by omega), hnone]
          rfl
        · rw [if_neg (by omega), if_neg (by omega)]
  unfold sepPass
  obtain ⟨_, hget⟩ := key cands.length
  apply List.ext_getElem?
  intro j
  rw [hget j, List.getElem?_map]
  by_cases hj : j < cands.length
  · simp [hj]
  · have : cands[j]? = none := List.getElem?_eq_none (by omega)
    simp [this, hj]

theorem clampedCheck_map {cfg : DungeonConfig} {cands : List Room}
    (h : clampedCheck cfg cands = true) :
    clampedCheck cfg (cands.map setPos11) = true := by
  unfold clampedCheck at h ⊢
  rw [List.all_eq_true] at h ⊢
  intro r hr
  rw [List.mem_map] at hr
  obtain ⟨r0, hr0, rfl⟩ := hr
  exact h r0 hr0

theorem setPos11_idem (l : List Room) : (l.map setPos11).map setPos11 = l.map setPos11 := by
  rw [List.map_map]
  rfl

theorem applySep_clamped {cfg : DungeonConfig} {cands : List Room}
    (h : clampedCheck cfg cands = true) :
    applySpatialSeparation cfg cands = cands.map setPos11 := by
  unfold applySpatialSeparation
  have h2 : sepPass cfg (cands.map setPos11) = cands.map setPos11 := by
    rw [sepPass_clamped (clampedCheck_map h), setPos11_idem]
  rw [show (50 : ℕ) = 49 + 1 from rfl, Function.iterate_succ_apply,
      sepPass_clamped h]
  exact Function.iterate_fixed h2 49

/-! ## Generic invariant helpers -/

theorem foldl_inv {α β : Type} {P : α → Prop} {f : α → β → α} {c : α} {l : List β}
    (h : P c) (hstep : ∀ a b, P a → P (f a b)) : P (l.foldl f c) := by
  induction l generalizing c with
  | nil => exact h
  | cons x xs ih => exact ih (hstep c x h)

theorem iterate_inv {α : Type} {P : α → Prop} {f : α → α} {c : α} (n : ℕ)
    (h : P c) (hstep : ∀ a, P a → P (f a)) : P (f^[n] c) := by
  induction n with
  | zero => exact h
  | succ n ih => rw [Function.iterate_succ_apply']; exact hstep _ ih

/-! ## Shape preservation through connectivity and door phases

`stripConn` forgets the adjacency list; the connectivity phases only extend
adjacency lists and append corridor-kind entities, so the `stripConn` image
of the room list changes only by an all-corridor suffix, and `placeDoors`
does not touch the room list at all. -/

theorem stripConn_idem (l : List Room) : (l.map stripConn).map stripConn = l.map stripConn := by
  rw [List.map_map]
  rfl

theorem map_strip_set {rooms : List Room} {i : ℕ} {r : Room} {l : List RoomId}
    (h : rooms[i]? = some r) :
    (rooms.set i { r with connectedTo := l }).map stripConn = rooms.map stripConn := by
  rw [List.map_set]
  apply list_set_self
  rw [List.getElem?_map, h]
  rfl

theorem pushEdge_strip (rooms : List Room) (a b : ℕ) :
    (pushEdge rooms a b).map stripConn = rooms.map stripConn := by
  unfold pushEdge
  cases ha : rooms[a]? with
  | none => rfl
  | some ra =>
    cases hb : rooms[b]? with
    | none => rfl
    | some rb =>
      simp only
      cases hb2 : (rooms.set a { ra with connectedTo := ra.connectedTo ++ [rb.id] })[b]? with
      | none => exact map_strip_set ha
      | some rb2 =>
        rw [map_strip_set hb2, map_strip_set ha]

theorem mstLoop_strip (fuel : ℕ) (rooms : List Room) (connected : List ℕ)
    (conns : List (ℕ × ℕ)) :
    (mstLoop fuel rooms connected conns).1.map stripConn = rooms.map stripConn := by
  induction fuel generalizing rooms connected conns with
  | zero => rfl
  | succ fuel ih =>
    unfold mstLoop
    by_cases h : connected.length < rooms.length
    · rw [if_pos h]
      cases hf : findShortest rooms connected with
      | none => rfl
      | some ab => rw [ih, pushEdge_strip]
    · rw [if_neg h]

theorem addComplexity_strip (cfg : DungeonConfig) (rooms : List Room)
    (conns : List (ℕ × ℕ)) (s : ℚ) :
    (addComplexityConnections cfg rooms conns s).1.map stripConn = rooms.map stripConn := by
  unfold addComplexityConnections
  apply foldl_inv (P := fun acc : List Room × List (ℕ × ℕ) × ℚ =>
    acc.1.map stripConn = rooms.map stripConn) rfl
  intro acc _ hacc
  obtain ⟨rs, cs, q⟩ := acc
  simp only
  split
  · rw [pushEdge_strip]; exact hacc
  · exact hacc

theorem generateCorridor_suffix (cfg : DungeonConfig) (rooms : List Room)
    (tm : Tilemap) (a b : ℕ) :
    ∃ suffix, (generateCorridor cfg rooms tm a b).1 = rooms ++ suffix ∧
      ∀ r ∈ suffix, r.type = RoomType.corridor := by
  unfold generateCorridor
  dsimp only
  split_ifs
  · exact ⟨[_], rfl, by simp⟩
  · exact ⟨[], by simp, by simp⟩
  · exact ⟨[], by simp, by simp⟩

theorem corridorFold_suffix (cfg : DungeonConfig) (rooms : List Room) (tm : Tilemap)
    (conns : List (ℕ × ℕ)) :
    ∃ suffix, (conns.foldl (fun acc c => generateCorridor cfg acc.1 acc.2 c.1 c.2)
      (rooms, tm)).1 = rooms ++ suffix ∧
      ∀ r ∈ suffix, r.type = RoomType.corridor := by
  apply foldl_inv (P := fun acc : List Room × Tilemap =>
    ∃ suffix, acc.1 = rooms ++ suffix ∧ ∀ r ∈ suffix, r.type = RoomType.corridor)
  · exact ⟨[], by simp, by simp⟩
  · rintro ⟨rs, t⟩ c ⟨suffix, heq, hall⟩
    obtain ⟨suffix2, heq2, hall2⟩ := generateCorridor_suffix cfg rs t c.1 c.2
    simp only at heq
    refine ⟨suffix ++ suffix2, ?_, ?_⟩
    · simp only at heq2 ⊢
      rw [heq2, heq, List.append_assoc]
    · intro r hr
      rcases List.mem_append.mp hr with h | h
      · exact hall r h
      · exact hall2 r h

theorem connectRooms_shape (st : GenState) :
    ∃ main suffix, (connectRooms st).rooms = main ++ suffix ∧
      main.map stripConn = st.rooms.map stripConn ∧
      ∀ r ∈ suffix, r.type = RoomType.corridor := by
  unfold connectRooms
  by_cases h : st.rooms.length < 2
  · rw [if_pos h]
    exact ⟨st.rooms, [], by simp, rfl, by simp⟩
  · rw [if_neg h]
    obtain ⟨suffix, heq, hall⟩ := corridorFold_suffix st.config
      (addComplexityConnections st.config (generateMinimumSpanningTree st.rooms).1
        (generateMinimumSpanningTree st.rooms).2 st.rng).1 st.tilemap
      (addComplexityConnections st.config (generateMinimumSpanningTree st.rooms).1
        (generateMinimumSpanningTree st.rooms).2 st.rng).2.1
    refine ⟨_, suffix, heq, ?_, hall⟩
    rw [addComplexity_strip]
    unfold generateMinimumSpanningTree
    exact mstLoop_strip _ _ _ _

theorem placeDoors_rooms (st : GenState) : (placeDoors st).rooms = st.rooms := rfl

/-! ## Range of the random source and candidate sizes -/

theorem jsMod_lt {x m : ℚ} (hm : 0 < m) : jsMod x m < m := by
  unfold jsMod ratTrunc
  split
  · rename_i hq
    rw [jsFloor_eq]
    have h1 : (⌊x / m⌋ : ℚ) > x / m - 1 := by
      have := Int.sub_one_lt_floor (x / m)
      linarith
    have h2 : m * ((⌊x / m⌋ : ℤ) : ℚ) > m * (x / m - 1) := by
      exact (mul_lt_mul_left hm).mpr h1
    have h3 : m * (x / m) = x := by
      field_simp
    nlinarith
  · rename_i hq
    rw [jsCeil_eq]
    have h1 : x / m ≤ (⌈x / m⌉ : ℚ) := Int.le_ceil _
    have h2 : m * (x / m) ≤ m * ((⌈x / m⌉ : ℤ) : ℚ) := by
      exact (mul_le_mul_left hm).mpr h1
    have h3 : m * (x / m) = x := by
      field_simp
    nlinarith

theorem randomVal_lt_one (s : ℚ) : (randomVal s).1 < 1 := by
  unfold randomVal rngNext
  have h := jsMod_lt (x := s * 9301 + 49297) (m := 233280) (by norm_num)
  simp only
  rw [div_lt_one (by norm_num)]
  exact h

theorem randomInt_le_max {s : ℚ} {mn mx : ℤ} (h : mn ≤ mx) :
    (randomInt s mn mx).1 ≤ mx := by
  unfold randomInt
  simp only
  rw [jsFloor_eq]
  have hr := randomVal_lt_one s
  have hcast : ((mx - mn + 1 : ℤ) : ℚ) = (mx : ℚ) - (mn : ℚ) + 1 := by
    push_cast
    ring
  have hn : (0 : ℚ) < (mx : ℚ) - (mn : ℚ) + 1 := by
    rw [← hcast]
    exact_mod_cast (by omega : (0 : ℤ) < mx - mn + 1)
  have hlt : (randomVal s).1 * ((mx : ℚ) - (mn : ℚ) + 1) < ((mx - mn + 1 : ℤ) : ℚ) := by
    rw [hcast]
    nlinarith
  have hfl : ⌊(randomVal s).1 * ((mx : ℚ) - (mn : ℚ) + 1)⌋ < mx - mn + 1 :=
    Int.floor_lt.mpr hlt
  omega

theorem genCandidates_size_le {cfg : DungeonConfig} {s : ℚ}
    (h : cfg.minRoomSize ≤ cfg.maxRoomSize) :
    ∀ r ∈ (genCandidates cfg s).2.1,
      r.width ≤ cfg.maxRoomSize ∧ r.height ≤ cfg.maxRoomSize := by
  unfold genCandidates
  dsimp only
  apply foldl_inv (P := fun acc : List Room × ℚ =>
    ∀ r ∈ acc.1, r.width ≤ cfg.maxRoomSize ∧ r.height ≤ cfg.maxRoomSize)
  · intro r hr
    simp at hr
  · intro acc i hacc r hr
    simp only [List.mem_append, List.mem_singleton] at hr
    rcases hr with hr | rfl
    · exact hacc r hr
    · exact ⟨randomInt_le_max h, randomInt_le_max h⟩

/-! ## Position bounds after spatial separation -/

theorem clampPos_bounds {hi : ℤ} (h : 1 ≤ hi) (v : ℤ) :
    1 ≤ clampPos 1 hi v ∧ clampPos 1 hi v ≤ hi := by
  unfold clampPos
  omega

/-- After one separation pass every candidate was clamped into its range
(whatever the accumulated real-valued forces were); sizes, ids and types
are untouched. -/
theorem sepPass_bounds {cfg : DungeonConfig} {cands : List Room}
    (hsz : ∀ r ∈ cands, r.width ≤ cfg.dungeonWidth - 2 ∧
      r.height ≤ cfg.dungeonHeight - 2) :
    (sepPass cfg cands).length = cands.length ∧
    ∀ j : ℕ, ∀ r, (sepPass cfg cands)[j]? = some r →
      ∃ r0, cands[j]? = some r0 ∧ r.width = r0.width ∧ r.height = r0.height ∧
        r.id = r0.id ∧ r.type = r0.type ∧ inClampRange cfg r := by
  have key : ∀ k : ℕ,
      ((List.range k).foldl (sepStepAt cfg) cands).length = cands.length ∧
      ∀ j : ℕ, ∀ r, ((List.range k).foldl (sepStepAt cfg) cands)[j]? = some r →
        ∃ r0, cands[j]? = some r0 ∧ r.width = r0.width ∧ r.height = r0.height ∧
          r.id = r0.id ∧ r.type = r0.type ∧ (j < k → inClampRange cfg r) := by
    intro k
    induction k with
    | zero =>
      refine ⟨by simp, fun j r hr => ⟨r, by simpa using hr, rfl, rfl, rfl, rfl, by omega⟩⟩
    | succ k ih =>
      rw [List.range_succ, List.foldl_append, List.foldl_cons, List.foldl_nil]
      set S := (List.range k).foldl (sepStepAt cfg) cands with hS
      obtain ⟨ihlen, ihget⟩ := ih
      cases hSk : S[k]? with
      | none =>
        have hid : sepStepAt cfg S k = S := by unfold sepStepAt; rw [hSk]
        rw [hid]
        refine ⟨ihlen, fun j r hr => ?_⟩
        obtain ⟨r0, h0, hw, hh, hi, ht, hcl⟩ := ihget j r hr
        have hjk : j ≠ k := fun he => by rw [he, hSk] at hr; exact Option.noConfusion hr
        exact ⟨r0, h0, hw, hh, hi, ht, fun _ => hcl (by omega)⟩
      | some rk =>
        obtain ⟨rk0, h0, hw, hh, hi0, ht, _⟩ := ihget k rk hSk
        have hmem : rk0 ∈ cands := List.getElem?_mem h0
        have hszk := hsz rk0 hmem
        unfold sepStepAt
        rw [hSk]
        refine ⟨by rw [List.length_set]; exact ihlen, fun j r hr => ?_⟩
        rcases eq_or_ne j k with rfl | hjk
        · rw [List.getElem?_set_self (List.getElem?_eq_some.mp hSk).1] at hr
          cases hr
          refine ⟨rk0, h0, hw, hh, hi0, ht, fun _ => ?_⟩
          have hx := @clampPos_bounds (cfg.dungeonWidth - rk.width - 1)
            (by omega) (jsRound ((rk.x : ℝ) + (forceOfTerms (sepTerms S j)).1))
          have hy := @clampPos_bounds (cfg.dungeonHeight - rk.height - 1)
            (by omega) (jsRound ((rk.y : ℝ) + (forceOfTerms (sepTerms S j)).2))
          exact ⟨hx.1, hx.2, hy.1, hy.2⟩
        · rw [List.getElem?_set_ne hjk.symm] at hr
          obtain ⟨r0, h0', hw', hh', hi', ht', hcl'⟩ := ihget j r hr
          exact ⟨r0, h0', hw', hh', hi', ht', fun _ => hcl' (by omega)⟩
  obtain ⟨hlen, hget⟩ := key cands.length
  refine ⟨hlen, fun j r hr => ?_⟩
  have hj : j < cands.length := by
    have h1 : j < (sepPass cfg cands).length := (List.getElem?_eq_some.mp hr).1
    rw [sepPass] at h1
    omega
  obtain ⟨r0, h0, hw, hh, hi0, ht, hcl⟩ := hget j r hr
  exact ⟨r0, h0, hw, hh, hi0, ht, hcl hj⟩

theorem sepPass_size_mem {cfg : DungeonConfig} {cands : List Room}
    (hsz : ∀ r ∈ cands, r.width ≤ cfg.dungeonWidth - 2 ∧
      r.height ≤ cfg.dungeonHeight - 2) :
    ∀ r ∈ sepPass cfg cands, r.width ≤ cfg.dungeonWidth - 2 ∧
      r.height ≤ cfg.dungeonHeight - 2 := by
  intro r hr
  obtain ⟨j, hj⟩ := List.getElem?_of_mem hr
  obtain ⟨r0, h0, hw, hh, _, _, _⟩ := (sepPass_bounds hsz).2 j r hj
  have := hsz r0 (List.getElem?_mem h0)
  omega

theorem applySep_bounds {cfg : DungeonConfig} {cands : List Room}
    (hsz : ∀ r ∈ cands, r.width ≤ cfg.dungeonWidth - 2 ∧
      r.height ≤ cfg.dungeonHeight - 2) :
    ∀ r ∈ applySpatialSeparation cfg cands, inClampRange cfg r := by
  unfold applySpatialSeparation
  rw [show (50 : ℕ) = 49 + 1 from rfl, Function.iterate_succ_apply']
  have hsz49 : ∀ r ∈ (sepPass cfg)^[49] cands, r.width ≤ cfg.dungeonWidth - 2 ∧
      r.height ≤ cfg.dungeonHeight - 2 :=
    iterate_inv (P := fun l : List Room => ∀ r ∈ l, r.width ≤ cfg.dungeonWidth - 2 ∧
      r.height ≤ cfg.dungeonHeight - 2) 49 hsz (fun l hl => sepPass_size_mem hl)
  intro r hr
  obtain ⟨j, hj⟩ := List.getElem?_of_mem hr
  obtain ⟨_, _, _, _, _, _, hcl⟩ := (sepPass_bounds hsz49).2 j r hj
  exact hcl

/-! ## Selection and merging keep rooms inside the map -/

theorem insertByAreaDesc_perm (r : Room) (l : List Room) :
    List.Perm (insertByAreaDesc r l) (r :: l) := by
  induction l with
  | nil => exact List.Perm.refl _
  | cons x xs ih =>
    unfold insertByAreaDesc
    split
    · exact List.Perm.refl _
    · exact (ih.cons x).trans (List.Perm.swap r x xs)

theorem sortByAreaDesc_perm (l : List Room) : List.Perm (sortByAreaDesc l) l := by
  unfold sortByAreaDesc
  suffices h : ∀ acc : List Room,
      List.Perm (l.foldl (fun acc r => insertByAreaDesc r acc) acc) (acc ++ l) by
    simpa using h []
  induction l with
  | nil => intro acc; simp
  | cons x xs ih =>
    intro acc
    rw [List.foldl_cons]
    refine (ih (insertByAreaDesc x acc)).trans ?_
    have h1 : List.Perm (insertByAreaDesc x acc ++ xs) ((x :: acc) ++ xs) :=
      (insertByAreaDesc_perm x acc).append_right xs
    refine h1.trans ?_
    simp only [List.cons_append]
    exact (List.perm_middle).symm

theorem selectLoop_mem (cfg : DungeonConfig) (target : ℤ) :
    ∀ (rem sel : List Room), ∀ x ∈ selectLoop cfg target rem sel,
      x ∈ rem ∨ x ∈ sel := by
  intro rem
  induction rem with
  | nil =>
    intro sel x hx
    exact Or.inr (by simpa [selectLoop] using hx)
  | cons c rest ih =>
    intro sel x hx
    unfold selectLoop at hx
    split at hx
    · exact Or.inr hx
    · split at hx
      · rcases ih sel x hx with h | h
        · exact Or.inl (by simp [h])
        · exact Or.inr h
      · rcases ih (sel ++ [c]) x hx with h | h
        · exact Or.inl (by simp [h])
        · rcases List.mem_append.mp h with h | h
          · exact Or.inr h
          · exact Or.inl (by simp at h; simp [h])

theorem fillLoop_mem (target : ℤ) (sorted : List Room) :
    ∀ (fuel : ℕ) (sel : List Room), ∀ x ∈ fillLoop target sorted fuel sel,
      x ∈ sorted ∨ x ∈ sel := by
  intro fuel
  induction fuel with
  | zero =>
    intro sel x hx
    exact Or.inr (by simpa [fillLoop] using hx)
  | succ fuel ih =>
    intro sel x hx
    unfold fillLoop at hx
    split at hx
    · cases hfind : sorted.find? (fun c => ¬ sel.contains c) with
      | none =>
        rw [hfind] at hx
        exact Or.inr hx
      | some c =>
        rw [hfind] at hx
        rcases ih (sel ++ [c]) x hx with h | h
        · exact Or.inl h
        · rcases List.mem_append.mp h with h | h
          · exact Or.inr h
          · simp at h
            exact Or.inl (h ▸ List.mem_of_find?_eq_some hfind)
    · exact Or.inr hx

theorem selectBestRooms_mem {cfg : DungeonConfig} {cands : List Room} {target : ℤ} :
    ∀ x ∈ selectBestRooms cfg cands target, x ∈ cands := by
  intro x hx
  unfold selectBestRooms at hx
  rcases fillLoop_mem _ _ _ _ x hx with h | h
  · exact (sortByAreaDesc_perm cands).mem_iff.mp h
  · rcases selectLoop_mem cfg target _ [] x h with h | h
    · exact (sortByAreaDesc_perm cands).mem_iff.mp h
    · simp at h

theorem roomInMap_of_clamp {cfg : DungeonConfig} {r : Room}
    (h : inClampRange cfg r) : roomInMap cfg r := by
  obtain ⟨h1, h2, h3, h4⟩ := h
  exact ⟨by omega, by omega, by omega, by omega⟩

theorem attemptRoomMerge_inMap {cfg : DungeonConfig} {rooms : List Room} {i j : ℕ}
    (h : ∀ r ∈ rooms, roomInMap cfg r) :
    ∀ r ∈ attemptRoomMerge rooms i j, roomInMap cfg r := by
  unfold attemptRoomMerge
  cases hi : rooms[i]? with
  | none => exact h
  | some r1 =>
    cases hj : rooms[j]? with
    | none => exact h
    | some r2 =>
      dsimp only
      split
      · intro r hr
        rcases List.mem_or_eq_of_mem_set (List.mem_of_mem_eraseIdx hr) with hm | he
        · exact h r hm
        · subst he
          obtain ⟨a1, a2, a3, a4⟩ := h r1 (List.getElem?_mem hi)
          obtain ⟨c1, c2, c3, c4⟩ := h r2 (List.getElem?_mem hj)
          refine ⟨?_, ?_, ?_, ?_⟩ <;> dsimp only [roomInMap] <;> omega
      · exact h

theorem overlapInner_inMap {cfg : DungeonConfig} {i : ℕ} :
    ∀ (fuel j : ℕ) (acc : List Room × ℚ),
      (∀ r ∈ acc.1, roomInMap cfg r) →
      ∀ r ∈ (overlapInner cfg i fuel j acc).1, roomInMap cfg r := by
  intro fuel
  induction fuel with
  | zero => intro j acc h; exact h
  | succ fuel ih =>
    intro j acc h
    obtain ⟨rooms, s⟩ := acc
    unfold overlapInner
    split
    · apply ih
      dsimp only
      split
      · exact attemptRoomMerge_inMap h
      · exact h
    · exact h

theorem overlapOuter_inMap {cfg : DungeonConfig} :
    ∀ (fuel i : ℕ) (acc : List Room × ℚ),
      (∀ r ∈ acc.1, roomInMap cfg r) →
      ∀ r ∈ (overlapOuter cfg fuel i acc).1, roomInMap cfg r := by
  intro fuel
  induction fuel with
  | zero => intro i acc h; exact h
  | succ fuel ih =>
    intro i acc h
    obtain ⟨rooms, s⟩ := acc
    unfold overlapOuter
    split
    · exact ih _ _ (overlapInner_inMap _ _ _ h)
    · exact h

theorem applyControlledOverlapping_inMap {cfg : DungeonConfig} {rooms : List Room}
    {s : ℚ} (h : ∀ r ∈ rooms, roomInMap cfg r) :
    ∀ r ∈ (applyControlledOverlapping cfg rooms s).1, roomInMap cfg r := by
  unfold applyControlledOverlapping
  split
  · exact h
  · exact overlapOuter_inMap _ _ _ h

theorem generateRooms_inMap {st : GenState}
    (h1 : st.config.minRoomSize ≤ st.config.maxRoomSize)
    (h2 : st.config.maxRoomSize ≤ st.config.dungeonWidth - 2)
    (h3 : st.config.maxRoomSize ≤ st.config.dungeonHeight - 2) :
    ∀ r ∈ (generateRooms st).rooms, roomInMap st.config r := by
  unfold generateRooms
  dsimp only
  have hsz : ∀ r ∈ (genCandidates st.config st.rng).2.1,
      r.width ≤ st.config.dungeonWidth - 2 ∧
      r.height ≤ st.config.dungeonHeight - 2 := by
    intro r hr
    obtain ⟨hw, hh⟩ := genCandidates_size_le h1 r hr
    exact ⟨by omega, by omega⟩
  have hsep := applySep_bounds hsz
  have hsel : ∀ x ∈ selectBestRooms st.config
      (applySpatialSeparation st.config (genCandidates st.config st.rng).2.1)
      (genCandidates st.config st.rng).1, roomInMap st.config x :=
    fun x hx => roomInMap_of_clamp (hsep x (selectBestRooms_mem x hx))
  exact applyControlledOverlapping_inMap hsel

theorem stripConn_fields {r r0 : Room} (h : stripConn r = stripConn r0) :
    r.x = r0.x ∧ r.y = r0.y ∧ r.width = r0.width ∧ r.height = r0.height ∧
      r.type = r0.type := by
  have hx := congrArg Room.x h
  have hy := congrArg Room.y h
  have hw := congrArg Room.width h
  have hh := congrArg Room.height h
  have ht := congrArg Room.type h
  exact ⟨hx, hy, hw, hh, ht⟩

/-! ## Ids, types and connections of freshly generated rooms -/

theorem map_set_congr {α β : Type} {l : List α} {i : ℕ} {a : α} {f : α → β}
    (h : (l.map f)[i]? = some (f a)) : (l.set i a).map f = l.map f := by
  rw [List.map_set]
  exact list_set_self h

theorem foldl_pres {α β γ : Type} {g : α → γ} {f : α → β → α}
    (h : ∀ a b, g (f a b) = g a) (l : List β) (acc : α) :
    g (l.foldl f acc) = g acc := by
  induction l generalizing acc with
  | nil => rfl
  | cons x xs ih => rw [List.foldl_cons, ih, h]

theorem iterate_pres {α γ : Type} {g : α → γ} {f : α → α}
    (h : ∀ a, g (f a) = g a) (n : ℕ) (acc : α) : g (f^[n] acc) = g acc := by
  induction n with
  | zero => rfl
  | succ n ih => rw [Function.iterate_succ_apply', h, ih]

theorem sepStepAt_map_meta (cfg : DungeonConfig) (l : List Room) (k : ℕ) :
    (sepStepAt cfg l k).map projMeta = l.map projMeta := by
  unfold sepStepAt
  cases hk : l[k]? with
  | none => rfl
  | some rk =>
    dsimp only
    apply map_set_congr
    rw [List.getElem?_map, hk]
    rfl

theorem sepPass_map_meta (cfg : DungeonConfig) (l : List Room) :
    (sepPass cfg l).map projMeta = l.map projMeta := by
  unfold sepPass
  exact foldl_pres (fun a b => sepStepAt_map_meta cfg a b) _ l

theorem applySep_map_meta (cfg : DungeonConfig) (l : List Room) :
    (applySpatialSeparation cfg l).map projMeta = l.map projMeta := by
  unfold applySpatialSeparation
  exact iterate_pres (fun a => sepPass_map_meta cfg a) 50 l

theorem foldl_meta_append {α : Type} (f : List Room × ℚ → α → List Room × ℚ)
    (g : α → RoomId × RoomType × List RoomId)
    (h : ∀ acc i, ((f acc i).1).map projMeta = acc.1.map projMeta ++ [g i]) :
    ∀ (l : List α) (acc : List Room × ℚ),
      ((l.foldl f acc).1).map projMeta = acc.1.map projMeta ++ l.map g := by
  intro l
  induction l with
  | nil => intro acc; simp
  | cons x xs ih =>
    intro acc
    rw [List.foldl_cons, ih, h]
    simp

theorem genCandidates_meta (cfg : DungeonConfig) (s : ℚ) :
    ∃ n : ℕ, ((genCandidates cfg s).2.1).map projMeta =
      (List.range n).map
        (fun i => (RoomId.room i, RoomType.room, ([] : List RoomId))) := by
  unfold genCandidates
  rcases hrc : randomInt s cfg.minRooms cfg.maxRooms with ⟨cnt, s1⟩
  dsimp only
  refine ⟨(cnt * 3).toNat, ?_⟩
  exact (foldl_meta_append
    (fun (acc : List Room × ℚ) (i : ℕ) =>
      let (cands, s) := acc
      let (w, s) := randomInt s cfg.minRoomSize cfg.maxRoomSize
      let (h, s) := randomInt s cfg.minRoomSize cfg.maxRoomSize
      let (x, s) := randomInt s 1 (cfg.dungeonWidth - w - 1)
      let (y, s) := randomInt s 1 (cfg.dungeonHeight - h - 1)
      (cands ++ [{ id := RoomId.room i, x := x, y := y, width := w, height := h,
                   type := RoomType.room, connectedTo := [] }], s))
    (fun i => (RoomId.room i, RoomType.room, ([] : List RoomId)))
    (by
      rintro ⟨cands, q⟩ i
      dsimp only
      rcases randomInt q cfg.minRoomSize cfg.maxRoomSize with ⟨w, q1⟩
      rcases randomInt q1 cfg.minRoomSize cfg.maxRoomSize with ⟨h, q2⟩
      rcases randomInt q2 1 (cfg.dungeonWidth - w - 1) with ⟨x, q3⟩
      rcases randomInt q3 1 (cfg.dungeonHeight - h - 1) with ⟨y, q4⟩
      dsimp only
      rw [List.map_append]
      rfl)
    (List.range (cnt * 3).toNat) ([], s1)).trans (by simp)

theorem roomsWF_of_meta_eq {l l' : List Room}
    (h : l.map projMeta = l'.map projMeta) (hw : roomsWF l') : roomsWF l := by
  constructor
  · have hid : l.map (fun r => r.id) = l'.map (fun r => r.id) := by
      have h2 := congrArg (List.map (fun t : RoomId × RoomType × List RoomId => t.1)) h
      simpa [List.map_map, Function.comp, projMeta] using h2
    rw [hid]
    exact hw.1
  · intro r hr
    have hm : projMeta r ∈ l.map projMeta := List.mem_map_of_mem _ hr
    rw [h] at hm
    obtain ⟨r0, hr0, he⟩ := List.mem_map.mp hm
    obtain ⟨h1, h2⟩ := hw.2 r0 hr0
    have ht := congrArg (fun t : RoomId × RoomType × List RoomId => t.2.1) he
    have hc := congrArg (fun t : RoomId × RoomType × List RoomId => t.2.2) he
    simp only [projMeta] at ht hc
    exact ⟨ht ▸ h1, hc ▸ h2⟩

theorem roomsWF_of_meta_range {l : List Room} {n : ℕ}
    (h : l.map projMeta = (List.range n).map
      (fun i => (RoomId.room i, RoomType.room, ([] : List RoomId)))) :
    roomsWF l := by
  constructor
  · have hid : l.map (fun r => r.id) = (List.range n).map (fun i => RoomId.room i) := by
      have h2 := congrArg (List.map (fun t : RoomId × RoomType × List RoomId => t.1)) h
      simpa [List.map_map, Function.comp, projMeta] using h2
    rw [hid]
    refine List.Nodup.map ?_ (List.nodup_range n)
    intro a b hab
    injection hab
  · intro r hr
    have hm : projMeta r ∈ l.map projMeta := List.mem_map_of_mem _ hr
    rw [h] at hm
    obtain ⟨i, _, he⟩ := List.mem_map.mp hm
    have ht := congrArg (fun t : RoomId × RoomType × List RoomId => t.2.1) he
    have hc := congrArg (fun t : RoomId × RoomType × List RoomId => t.2.2) he
    simp only [projMeta] at ht hc
    exact ⟨ht.symm, hc.symm⟩

/-! ## Selection and merging keep the ids distinct -/

theorem selectLoop_nodup (cfg : DungeonConfig) (target : ℤ) :
    ∀ (rem sel : List Room),
      (((sel ++ rem).map (fun r => r.id)).Nodup) →
      ((selectLoop cfg target rem sel).map (fun r => r.id)).Nodup := by
  intro rem
  induction rem with
  | nil =>
    intro sel h
    unfold selectLoop
    simpa using h
  | cons c rest ih =>
    intro sel h
    unfold selectLoop
    split
    · exact List.Nodup.sublist
        ((List.sublist_append_left sel (c :: rest)).map (fun r => r.id)) h
    · split
      · apply ih
        exact List.Nodup.sublist
          (((List.append_sublist_append_left sel).mpr
            (List.sublist_cons_self c rest)).map (fun r => r.id)) h
      · apply ih
        have he : (sel ++ [c]) ++ rest = sel ++ c :: rest := by
          rw [List.append_assoc, List.singleton_append]
        rw [he]
        exact h

theorem eq_of_id_eq_of_nodup {l : List Room} (h : (l.map (fun r => r.id)).Nodup)
    {a b : Room} (ha : a ∈ l) (hb : b ∈ l) (hid : a.id = b.id) : a = b :=
  List.inj_on_of_nodup_map h ha hb hid

theorem fillLoop_nodup (target : ℤ) (sorted : List Room)
    (hs : (sorted.map (fun r => r.id)).Nodup) :
    ∀ (fuel : ℕ) (sel : List Room),
      (∀ x ∈ sel, x ∈ sorted) → ((sel.map (fun r => r.id)).Nodup) →
      ((fillLoop target sorted fuel sel).map (fun r => r.id)).Nodup := by
  intro fuel
  induction fuel with
  | zero =>
    intro sel _ h2
    exact h2
  | succ fuel ih =>
    intro sel h1 h2
    unfold fillLoop
    split
    · cases hfind : sorted.find? (fun c => ¬ sel.contains c) with
      | none => exact h2
      | some c =>
        have hc_mem : c ∈ sorted := List.mem_of_find?_eq_some hfind
        have hc_not : c ∉ sel := by
          have hp := List.find?_some hfind
          simp at hp
          exact hp
        apply ih
        · intro x hx
          rcases List.mem_append.mp hx with hx | hx
          · exact h1 x hx
          · rw [List.mem_singleton.mp hx]
            exact hc_mem
        · rw [List.map_append]
          rw [List.nodup_append]
          refine ⟨h2, by simp, ?_⟩
          intro y hy hz
          simp only [List.map_cons, List.map_nil, List.mem_singleton] at hz
          obtain ⟨d, hd, hdy⟩ := List.mem_map.mp hy
          have hdc : d = c := eq_of_id_eq_of_nodup hs (h1 d hd) hc_mem
            (by rw [hdy]; exact hz)
          exact hc_not (hdc ▸ hd)
    · exact h2

theorem selectBestRooms_nodup {cfg : DungeonConfig} {cands : List Room} {target : ℤ}
    (h : (cands.map (fun r => r.id)).Nodup) :
    ((selectBestRooms cfg cands target).map (fun r => r.id)).Nodup := by
  unfold selectBestRooms
  have hsorted : ((sortByAreaDesc cands).map (fun r => r.id)).Nodup :=
    (((sortByAreaDesc_perm cands).map (fun r => r.id)).nodup_iff).mpr h
  apply fillLoop_nodup target (sortByAreaDesc cands) hsorted
  · intro x hx
    rcases selectLoop_mem cfg target (sortByAreaDesc cands) [] x hx with hm | hm
    · exact hm
    · simp at hm
  · exact selectLoop_nodup cfg target (sortByAreaDesc cands) [] (by simpa using hsorted)

theorem nodup_ids_set_eraseIdx {rooms : List Room} {i j : ℕ} {r1 v : Room}
    (hi : rooms[i]? = some r1) (hid : v.id = r1.id)
    (h : (rooms.map (fun r => r.id)).Nodup) :
    (((rooms.set i v).eraseIdx j).map (fun r => r.id)).Nodup := by
  have hset : ((rooms.set i v).map (fun r => r.id)) = rooms.map (fun r => r.id) := by
    apply map_set_congr
    rw [List.getElem?_map, hi]
    simp [hid]
  have hsub := (List.eraseIdx_sublist (rooms.set i v) j).map (fun r => r.id)
  rw [hset] at hsub
  exact List.Nodup.sublist hsub h

theorem attemptRoomMerge_WF {rooms : List Room} {i j : ℕ} (h : roomsWF rooms) :
    roomsWF (attemptRoomMerge rooms i j) := by
  unfold attemptRoomMerge
  cases hi : rooms[i]? with
  | none => exact h
  | some r1 =>
    cases hj : rooms[j]? with
    | none => exact h
    | some r2 =>
      dsimp only
      split
      · constructor
        · exact nodup_ids_set_eraseIdx hi rfl h.1
        · intro r hr
          rcases List.mem_or_eq_of_mem_set (List.mem_of_mem_eraseIdx hr) with hm | he
          · exact h.2 r hm
          · subst he
            exact h.2 r1 (List.getElem?_mem hi)
      · exact h

theorem overlapInner_pres {cfg : DungeonConfig} {P : List Room → Prop}
    (hP : ∀ rooms i j, P rooms → P (attemptRoomMerge rooms i j)) (i : ℕ) :
    ∀ (fuel j : ℕ) (acc : List Room × ℚ),
      P acc.1 → P (overlapInner cfg i fuel j acc).1 := by
  intro fuel
  induction fuel with
  | zero => intro j acc h; exact h
  | succ fuel ih =>
    intro j acc h
    obtain ⟨rooms, s⟩ := acc
    unfold overlapInner
    split
    · apply ih
      dsimp only
      split
      · exact hP _ _ _ h
      · exact h
    · exact h

theorem overlapOuter_pres {cfg : DungeonConfig} {P : List Room → Prop}
    (hP : ∀ rooms i j, P rooms → P (attemptRoomMerge rooms i j)) :
    ∀ (fuel i : ℕ) (acc : List Room × ℚ),
      P acc.1 → P (overlapOuter cfg fuel i acc).1 := by
  intro fuel
  induction fuel with
  | zero => intro i acc h; exact h
  | succ fuel ih =>
    intro i acc h
    obtain ⟨rooms, s⟩ := acc
    unfold overlapOuter
    split
    · exact ih _ _ (overlapInner_pres hP _ _ _ _ h)
    · exact h

theorem applyControlledOverlapping_pres {cfg : DungeonConfig} {P : List Room → Prop}
    (hP : ∀ rooms i j, P rooms → P (attemptRoomMerge rooms i j))
    {rooms : List Room} {s : ℚ} (h : P rooms) :
    P (applyControlledOverlapping cfg rooms s).1 := by
  unfold applyControlledOverlapping
  split
  · exact h
  · exact overlapOuter_pres hP _ _ _ h

/-- After `generateRooms` the room list has pairwise distinct ids, only
Room-kind entries, and empty `connectedTo` lists. -/
theorem generateRooms_WF (st : GenState) : roomsWF (generateRooms st).rooms := by
  unfold generateRooms
  dsimp only
  apply applyControlledOverlapping_pres (fun rooms i j h => attemptRoomMerge_WF h)
  obtain ⟨n, hmeta⟩ := genCandidates_meta st.config st.rng
  have hcand : roomsWF (genCandidates st.config st.rng).2.1 := roomsWF_of_meta_range hmeta
  have hsep : roomsWF (applySpatialSeparation st.config (genCandidates st.config st.rng).2.1) :=
    roomsWF_of_meta_eq (applySep_map_meta st.config _) hcand
  constructor
  · exact selectBestRooms_nodup hsep.1
  · intro r hr
    exact hsep.2 r (selectBestRooms_mem r hr)

/-! ## Symmetry of the room-to-room edges -/

theorem idInj_of_nodup {l : List Room} (h : (l.map (fun r => r.id)).Nodup) :
    idInj l := by
  intro i j ri rj hi hj hid
  have hi' : (l.map (fun r => r.id))[i]? = some ri.id := by
    rw [List.getElem?_map, hi]
    rfl
  have hj' : (l.map (fun r => r.id))[j]? = some rj.id := by
    rw [List.getElem?_map, hj]
    rfl
  have hlen : i < (l.map (fun r => r.id)).length := (List.getElem?_eq_some.mp hi').1
  apply List.getElem?_inj hlen h
  rw [hi', hj', hid]

/-- `pushEdge` records the edge in both endpoints, so it preserves the
symmetry of `connectedTo` as long as ids are pairwise distinct. -/
theorem pushEdge_symm {l : List Room} (a b : ℕ)
    (hinj : idInj l) (hs : symmIdx l) : symmIdx (pushEdge l a b) := by
  unfold pushEdge
  cases ha : l[a]? with
  | none => exact hs
  | some ra =>
    cases hb : l[b]? with
    | none => exact hs
    | some rb =>
      dsimp only
      have hal : a < l.length := (List.getElem?_eq_some.mp ha).1
      have hbl : b < l.length := (List.getElem?_eq_some.mp hb).1
      cases hb2 : (l.set a { ra with connectedTo := ra.connectedTo ++ [rb.id] })[b]? with
      | none =>
        rw [List.getElem?_eq_getElem (by rw [List.length_set]; exact hbl)] at hb2
        exact Option.noConfusion hb2
      | some rb2 =>
        rcases eq_or_ne a b with rfl | hab
        · -- self edge: both endpoint updates hit the same entry
          rw [ha] at hb
          obtain rfl : ra = rb := Option.some.inj hb
          rw [List.getElem?_set_self hal] at hb2
          obtain rfl := Option.some.inj hb2
          dsimp only
          rw [List.set_set]
          intro i j ri rj hi hj hmem
          rcases eq_or_ne i j with rfl | hij
          · rw [hi] at hj
            obtain rfl := Option.some.inj hj
            exact hmem
          · rcases eq_or_ne i a with rfl | hia
            · -- `ri` is the doubly updated entry
              rw [List.getElem?_set_self hal] at hi
              obtain rfl := Option.some.inj hi
              rw [List.getElem?_set_ne hij] at hj
              dsimp only at hmem ⊢
              simp only [List.mem_append, List.mem_singleton] at hmem
              rcases hmem with (hm | hm) | hm
              · exact hs i j ra rj ha hj hm
              · exact absurd (hinj j i rj ra hj ha hm) (Ne.symm hij)
              · exact absurd (hinj j i rj ra hj ha hm) (Ne.symm hij)
            · rw [List.getElem?_set_ne (Ne.symm hia)] at hi
              rcases eq_or_ne j a with rfl | hja
              · -- `rj` is the doubly updated entry
                rw [List.getElem?_set_self hal] at hj
                obtain rfl := Option.some.inj hj
                dsimp only at hmem ⊢
                simp only [List.mem_append, List.mem_singleton]
                exact Or.inl (Or.inl (hs i j ri ra hi ha hmem))
              · rw [List.getElem?_set_ne (Ne.symm hja)] at hj
                exact hs i j ri rj hi hj hmem
        · -- distinct endpoints
          rw [List.getElem?_set_ne hab, hb] at hb2
          obtain rfl := Option.some.inj hb2
          dsimp only
          intro i j ri rj hi hj hmem
          rcases eq_or_ne i j with rfl | hij
          · rw [hi] at hj
            obtain rfl := Option.some.inj hj
            exact hmem
          · rcases eq_or_ne i b with rfl | hib
            · -- `ri` is the updated second endpoint
              rw [List.getElem?_set_self (by rw [List.length_set]; exact hbl)] at hi
              obtain rfl := Option.some.inj hi
              rcases eq_or_ne j a with rfl | hja
              · -- partner is the updated first endpoint: edge recorded there
                rw [List.getElem?_set_ne (Ne.symm hab), List.getElem?_set_self hal] at hj
                obtain rfl := Option.some.inj hj
                dsimp only
                simp
              · rw [List.getElem?_set_ne hij, List.getElem?_set_ne (Ne.symm hja)] at hj
                dsimp only at hmem ⊢
                simp only [List.mem_append, List.mem_singleton] at hmem
                rcases hmem with hm | hm
                · exact hs i j rb rj hb hj hm
                · exact absurd (hinj j a rj ra hj ha hm) hja
            · rw [List.getElem?_set_ne (Ne.symm hib)] at hi
              rcases eq_or_ne i a with rfl | hia
              · -- `ri` is the updated first endpoint
                rw [List.getElem?_set_self hal] at hi
                obtain rfl := Option.some.inj hi
                rcases eq_or_ne j b with rfl | hjb
                · rw [List.getElem?_set_self (by rw [List.length_set]; exact hbl)] at hj
                  obtain rfl := Option.some.inj hj
                  dsimp only
                  simp
                · rw [List.getElem?_set_ne (Ne.symm hjb), List.getElem?_set_ne hij] at hj
                  dsimp only at hmem ⊢
                  simp only [List.mem_append, List.mem_singleton] at hmem
                  rcases hmem with hm | hm
                  · exact hs i j ra rj ha hj hm
                  · exact absurd (hinj j b rj rb hj hb hm) hjb
              · -- `ri` is untouched
                rw [List.getElem?_set_ne (Ne.symm hia)] at hi
                rcases eq_or_ne j b with rfl | hjb
                · rw [List.getElem?_set_self (by rw [List.length_set]; exact hbl)] at hj
                  obtain rfl := Option.some.inj hj
                  dsimp only at hmem ⊢
                  simp only [List.mem_append, List.mem_singleton]
                  exact Or.inl (hs i j ri rb hi hb hmem)
                · rw [List.getElem?_set_ne (Ne.symm hjb)] at hj
                  rcases eq_or_ne j a with rfl | hja
                  · rw [List.getElem?_set_self hal] at hj
                    obtain rfl := Option.some.inj hj
                    dsimp only at hmem ⊢
                    simp only [List.mem_append, List.mem_singleton]
                    exact Or.inl (hs i j ri ra hi ha hmem)
                  · rw [List.getElem?_set_ne (Ne.symm hja)] at hj
                    exact hs i j ri rj hi hj hmem

theorem pushEdge_connWF {l : List Room} (a b : ℕ)
    (h : (l.map (fun r => r.id)).Nodup ∧ symmIdx l) :
    ((pushEdge l a b).map (fun r => r.id)).Nodup ∧ symmIdx (pushEdge l a b) := by
  have hid : (pushEdge l a b).map (fun r => r.id) = l.map (fun r => r.id) := by
    have h2 := congrArg (List.map (fun r => r.id)) (pushEdge_strip l a b)
    simpa [List.map_map, Function.comp, stripConn] using h2
  exact ⟨by rw [hid]; exact h.1, pushEdge_symm a b (idInj_of_nodup h.1) h.2⟩

theorem mstLoop_connWF :
    ∀ (fuel : ℕ) (rooms : List Room) (connected : List ℕ) (conns : List (ℕ × ℕ)),
      (rooms.map (fun r => r.id)).Nodup ∧ symmIdx rooms →
      ((mstLoop fuel rooms connected conns).1.map (fun r => r.id)).Nodup ∧
        symmIdx (mstLoop fuel rooms connected conns).1 := by
  intro fuel
  induction fuel with
  | zero => intro rooms _ _ h; exact h
  | succ fuel ih =>
    intro rooms connected conns h
    unfold mstLoop
    split
    · cases hf : findShortest rooms connected with
      | none => exact h
      | some p =>
        obtain ⟨pa, pb⟩ := p
        exact ih _ _ _ (pushEdge_connWF pa pb h)
    · exact h

theorem addComplexity_connWF (cfg : DungeonConfig) (rooms : List Room)
    (conns : List (ℕ × ℕ)) (s : ℚ)
    (h : (rooms.map (fun r => r.id)).Nodup ∧ symmIdx rooms) :
    (((addComplexityConnections cfg rooms conns s).1).map (fun r => r.id)).Nodup ∧
      symmIdx (addComplexityConnections cfg rooms conns s).1 := by
  unfold addComplexityConnections
  dsimp only
  apply foldl_inv (P := fun acc : List Room × List (ℕ × ℕ) × ℚ =>
    (acc.1.map (fun r => r.id)).Nodup ∧ symmIdx acc.1)
  · exact h
  · intro acc i hacc
    obtain ⟨rs, cs, q⟩ := acc
    dsimp only
    split
    · exact pushEdge_connWF _ _ hacc
    · exact hacc

/-- `connectRooms` keeps the room-to-room connections symmetric; the only
asymmetric entries live in the appended corridor entities, which are not
Room-kind. -/
theorem connectRooms_symm (st : GenState)
    (h : (st.rooms.map (fun r => r.id)).Nodup ∧ symmIdx st.rooms) :
    ∀ a ∈ (connectRooms st).rooms, ∀ b ∈ (connectRooms st).rooms,
      a.type = RoomType.room → b.type = RoomType.room →
      b.id ∈ a.connectedTo → a.id ∈ b.connectedTo := by
  intro x hx y hy htx hty hmem
  unfold connectRooms at hx hy
  by_cases hlen : st.rooms.length < 2
  · rw [if_pos hlen] at hx hy
    obtain ⟨i, hi⟩ := List.getElem?_of_mem hx
    obtain ⟨j, hj⟩ := List.getElem?_of_mem hy
    exact h.2 i j x y hi hj hmem
  · rw [if_neg hlen] at hx hy
    dsimp only at hx hy
    obtain ⟨suffix, heq, hall⟩ := corridorFold_suffix st.config
      (addComplexityConnections st.config (generateMinimumSpanningTree st.rooms).1
        (generateMinimumSpanningTree st.rooms).2 st.rng).1 st.tilemap
      (addComplexityConnections st.config (generateMinimumSpanningTree st.rooms).1
        (generateMinimumSpanningTree st.rooms).2 st.rng).2.1
    rw [heq] at hx hy
    have hwf := addComplexity_connWF st.config (generateMinimumSpanningTree st.rooms).1
      (generateMinimumSpanningTree st.rooms).2 st.rng
      (mstLoop_connWF (st.rooms.length + 1) st.rooms [0] [] h)
    rcases List.mem_append.mp hx with hx' | hx'
    · rcases List.mem_append.mp hy with hy' | hy'
      · obtain ⟨i, hi⟩ := List.getElem?_of_mem hx'
        obtain ⟨j, hj⟩ := List.getElem?_of_mem hy'
        exact hwf.2 i j x y hi hj hmem
      · rw [hall y hy'] at hty
        exact absurd hty (by decide)
    · rw [hall x hx'] at htx
      exact absurd htx (by decide)

/-! ## Room-kind shape preservation through a whole `generate` call -/

theorem placeDoors_base (st : GenState) : (placeDoors st).baseRooms = st.baseRooms := rfl

theorem connectRooms_base (st : GenState) : (connectRooms st).baseRooms = st.baseRooms := by
  unfold connectRooms
  split <;> rfl

theorem saveBaseRooms_eq (rooms : List Room) :
    saveBaseRooms rooms = (rooms.filter (fun r => r.type == RoomType.room)).map stripConn := rfl

theorem filter_room_map_strip (l : List Room) :
    (l.filter (fun r => r.type == RoomType.room)).map stripConn =
      (l.map stripConn).filter (fun r => r.type == RoomType.room) := by
  rw [List.filter_map]
  rfl

theorem connectRooms_filter_strip (st : GenState) :
    (((connectRooms st).rooms.filter (fun r => r.type == RoomType.room)).map stripConn) =
      ((st.rooms.filter (fun r => r.type == RoomType.room)).map stripConn) := by
  obtain ⟨main, suffix, heq, hmain, hsuffix⟩ := connectRooms_shape st
  rw [heq, List.filter_append, List.map_append]
  have h1 : suffix.filter (fun r => r.type == RoomType.room) = [] := by
    rw [List.filter_eq_nil_iff]
    intro r hr
    simp [hsuffix r hr]
  rw [h1, List.map_nil, List.append_nil, filter_room_map_strip, hmain,
      ← filter_room_map_strip]

/-- After a fresh (`preserve = false`) call the base-room cache holds
exactly the `stripConn` image of the output's Room-kind entities. -/
theorem generate_false_base (st : GenState) :
    (generate false st).2.baseRooms =
      (((generate false st).1.rooms.filter (fun r => r.type == RoomType.room)).map stripConn) := by
  unfold generate
  dsimp only
  rw [if_neg (by simp)]
  rw [placeDoors_base, connectRooms_base, placeDoors_rooms, connectRooms_filter_strip]
  exact saveBaseRooms_eq _

theorem map_resetConn_eq_map_strip (l : List Room) :
    (l.map fun r => { r with connectedTo := ([] : List RoomId) }) = l.map stripConn := rfl

/-- A `preserve = true` call with a nonempty all-Room-kind cache rebuilds
from the cache: the output's Room-kind entities have exactly the cache's
shapes. -/
theorem generate_true_restore (st : GenState) (hne : st.baseRooms ≠ [])
    (hall : ∀ r ∈ st.baseRooms, r.type = RoomType.room) :
    (((generate true st).1.rooms.filter (fun r => r.type == RoomType.room)).map stripConn) =
      st.baseRooms.map stripConn := by
  unfold generate
  dsimp only
  rw [if_pos ⟨rfl, by cases hb : st.baseRooms with
    | nil => exact absurd hb hne
    | cons r l => simp [hb]⟩]
  rw [placeDoors_rooms, connectRooms_filter_strip]
  have hfil : ((st.baseRooms.map fun r => { r with connectedTo := ([] : List RoomId) }).filter
      (fun r => r.type == RoomType.room)) =
      st.baseRooms.map stripConn := by
    rw [map_resetConn_eq_map_strip, List.filter_eq_self.mpr]
    intro r hr
    rw [List.mem_map] at hr
    obtain ⟨r0, h0, rfl⟩ := hr
    simp [stripConn, hall r0 h0]
  rw [hfil, stripConn_idem]

theorem map_roomShape_of_map_strip {l1 l2 : List Room}
    (h : l1.map stripConn = l2.map stripConn) : l1.map roomShape = l2.map roomShape := by
  have h1 : l1.map roomShape = (l1.map stripConn).map roomShape := by
    rw [List.map_map]
    rfl
  rw [h1, h, List.map_map]
  rfl

/-- C5, amended.  Provided the initial `generate(false)` produced at least
one Room-kind entity, a subsequent `generate(true)` — even after an
`updateConfig` that changes complexity or corridor width but carries no
seed — returns Room-kind entities with exactly the same ids and bounding
boxes as the Room-kind entities of the first call. -/
theorem generate_true_preserves_base_rooms (st : GenState) (p : PartialConfig) (now : ℚ)
    (hseed : p.seed = none)
    (hne : (generate false st).1.rooms.filter (fun r => r.type == RoomType.room) ≠ []) :
    ((generate true (updateConfig p now (generate false st).2)).1.rooms.filter
        (fun r => r.type == RoomType.room)).map roomShape =
      ((generate false st).1.rooms.filter (fun r => r.type == RoomType.room)).map roomShape := by
  have hbase : (updateConfig p now (generate false st).2).baseRooms =
      (generate false st).2.baseRooms := by
    simp [updateConfig, hseed]
  have hA := generate_false_base st
  have hnb : (updateConfig p now (generate false st).2).baseRooms ≠ [] := by
    rw [hbase, hA]
    simpa using hne
  have hall : ∀ r ∈ (updateConfig p now (generate false st).2).baseRooms,
      r.type = RoomType.room := by
    rw [hbase, hA]
    intro r hr
    rw [List.mem_map] at hr
    obtain ⟨r0, h0, rfl⟩ := hr
    rw [List.mem_filter] at h0
    have := h0.2
    simp only [beq_iff_eq] at this
    simpa [stripConn] using this
  have hB := generate_true_restore _ hnb hall
  rw [hbase, hA, stripConn_idem] at hB
  exact map_roomShape_of_map_strip hB

/-! ## The evaluation bridge

Once the (noncomputable) separation outcome of a run has been established
by the fixed-point / clamping / interval lemmas, the whole `generate` call
reduces to the executable `generateGiven`, and concrete runs can be settled
by `decide`. -/

theorem generate_given_eq {st : GenState} {seped : List Room} (preserve : Bool)
    (h : applySpatialSeparation st.config (genCandidates st.config st.rng).2.1 = seped) :
    generate preserve st = generateGiven preserve st seped := by
  unfold generate generateGiven generateRooms generateRoomsGiven
  dsimp only
  rw [h]

/-- With `preserveBaseRooms = false` a `generate` call reads only the config
and the rng state (it resets the working arrays and overwrites the
base-room cache). -/
theorem generate_false_reset (st : GenState) :
    generate false st = generate false ⟨st.config, st.rng, [], [], [], []⟩ := by
  unfold generate generateRooms
  simp

/-- With an empty base-room cache any `generate` call reads only the config
and the rng state. -/
theorem generate_reset_of_noBase {st : GenState} (p : Bool) (h : st.baseRooms = []) :
    generate p st = generate p ⟨st.config, st.rng, [], [], [], []⟩ := by
  unfold generate generateRooms
  simp [h]

theorem generate_true_preserves_base_rooms_witness :
    ({ complexityLevel := some 1 : PartialConfig }.seed = none ∧
      (generate false (mkGenerator cfgRepeat 0)).1.rooms.filter
        (fun r => r.type == RoomType.room) ≠ []) ∧
    ((generate true (updateConfig { complexityLevel := some 1 } 0
        (generate false (mkGenerator cfgRepeat 0)).2)).1.rooms.filter
        (fun r => r.type == RoomType.room)).map roomShape =
      ((generate false (mkGenerator cfgRepeat 0)).1.rooms.filter
        (fun r => r.type == RoomType.room)).map roomShape := by
  have hne : (generate false (mkGenerator cfgRepeat 0)).1.rooms.filter
      (fun r => r.type == RoomType.room) ≠ [] := by
    rw [generate_given_eq false (applySep_of_fixed (by decide))]
    decide
  exact ⟨⟨rfl, hne⟩,
    generate_true_preserves_base_rooms (mkGenerator cfgRepeat 0) _ 0 rfl hne⟩

/-! ## Claim C1: determinism across repeated calls -/

theorem c1_state_config : (generate false (mkGenerator cfgRepeat 0)).2.config = cfgRepeat := by
  rw [generate_given_eq false (applySep_of_fixed (by decide))]
  decide

theorem c1_state_rng : (generate false (mkGenerator cfgRepeat 0)).2.rng = 50042 := by
  rw [generate_given_eq false (applySep_of_fixed (by decide))]
  decide

/-- C1, counterexample.  With configuration `cfgRepeat` (fixed seed 1) two
successive `generate()` calls on the same generator instance, with no
intervening `updateConfig`, return different room lists (so not
bit-identical `DungeonData`): the constructor seeds the rng once and
`generate` never re-seeds, so the second call continues the random stream
and places the single room elsewhere ((1,1) instead of (10,8)). -/
theorem repeatedGenerate_not_bitIdentical :
    (generate false ((generate false (mkGenerator cfgRepeat 0)).2)).1.rooms ≠
      (generate false (mkGenerator cfgRepeat 0)).1.rooms := by
  rw [generate_false_reset ((generate false (mkGenerator cfgRepeat 0)).2),
      c1_state_config, c1_state_rng]
  rw [generate_given_eq false (applySep_of_fixed (by decide))]
  rw [generate_given_eq false (applySep_of_fixed (by decide))]
  decide

/-- C1, amended.  `generate()` is a pure function of the generator state,
and when the configuration carries a seed the constructor ignores the
`Date.now()` fallback, so the first call's `DungeonData` is a function of
the configuration alone: generators constructed at different times from the
same seeded configuration produce identical output.  (Repeated calls on one
instance, however, advance the rng state — see the counterexample.) -/
theorem generate_deterministic_with_fixed_seed (cfg : DungeonConfig) (now now' q : ℚ)
    (h : cfg.seed = some q) :
    generate false (mkGenerator cfg now) = generate false (mkGenerator cfg now') := by
  unfold mkGenerator
  rw [h]
  rfl

theorem generate_deterministic_with_fixed_seed_witness :
    cfgRepeat.seed = some 1 ∧
      generate false (mkGenerator cfgRepeat 0) = generate false (mkGenerator cfgRepeat 999) :=
  ⟨by decide, generate_deterministic_with_fixed_seed cfgRepeat 0 999 1 (by decide)⟩

/-! ## Claim C2, counterexample: corridor entities break symmetry -/

/-- C2, counterexample.  With configuration `cfgSym` (seed 29) the dungeon
contains a synthetic corridor entity whose `connectedTo` lists the two rooms
it joins, while neither room lists the corridor back: `connectedTo` over
the full rooms list (corridor entities included) is not symmetric. -/
theorem corridor_connectedTo_asymmetric :
    ∃ c ∈ (generate false (mkGenerator cfgSym 0)).1.rooms,
      ∃ r ∈ (generate false (mkGenerator cfgSym 0)).1.rooms,
        r.id ∈ c.connectedTo ∧ c.id ∉ r.connectedTo := by
  rw [generate_given_eq false (applySep_of_fixed (by decide))]
  decide

/-- C2, amended.  Restricted to Room-kind entities the relation is
symmetric for every configuration and every generator state: room-to-room
edges are always recorded by `pushEdge`, which appends the edge to both
endpoints, and freshly generated rooms have pairwise distinct ids, so the
reverse entry always lands on the right room.  Only the synthetic
Corridor-kind entities are linked one-way. -/
theorem connectedTo_symmetric_on_rooms (st : GenState) :
    ∀ a ∈ (generate false st).1.rooms, ∀ b ∈ (generate false st).1.rooms,
      a.type = RoomType.room → b.type = RoomType.room →
      b.id ∈ a.connectedTo → a.id ∈ b.connectedTo := by
  intro a ha b hb hta htb hmem
  unfold generate at ha hb
  dsimp only at ha hb
  rw [if_neg (by simp), placeDoors_rooms] at ha hb
  have hWF := generateRooms_WF
    { st with rooms := [], doors := [], tilemap := initializeTilemap st.config }
  refine connectRooms_symm _ ⟨?_, ?_⟩ a ha b hb hta htb hmem
  · exact hWF.1
  · intro i j ri rj hi hj hm
    rw [(hWF.2 ri (List.getElem?_mem hi)).2] at hm
    simp at hm

/-- The amended C2 theorem at the `cfgSym` dungeon: the two generated rooms
list each other. -/
theorem connectedTo_symmetric_on_rooms_witness :
    (⟨RoomId.room 0, 10, 3, 1, 1, RoomType.room, [RoomId.room 2]⟩ : Room) ∈
        (generate false (mkGenerator cfgSym 0)).1.rooms ∧
    (⟨RoomId.room 2, 2, 3, 1, 1, RoomType.room, [RoomId.room 0]⟩ : Room) ∈
        (generate false (mkGenerator cfgSym 0)).1.rooms ∧
    (RoomId.room 2 ∈ [RoomId.room 2] ∧ RoomId.room 0 ∈ [RoomId.room 0]) := by
  have hA : (⟨RoomId.room 0, 10, 3, 1, 1, RoomType.room, [RoomId.room 2]⟩ : Room) ∈
      (generate false (mkGenerator cfgSym 0)).1.rooms := by
    rw [generate_given_eq false (applySep_of_fixed (by decide))]
    decide
  have hB : (⟨RoomId.room 2, 2, 3, 1, 1, RoomType.room, [RoomId.room 0]⟩ : Room) ∈
      (generate false (mkGenerator cfgSym 0)).1.rooms := by
    rw [generate_given_eq false (applySep_of_fixed (by decide))]
    decide
  refine ⟨hA, hB, ?_, ?_⟩
  · exact connectedTo_symmetric_on_rooms (mkGenerator cfgSym 0) _ hB _ hA rfl rfl
      (by decide)
  · exact connectedTo_symmetric_on_rooms (mkGenerator cfgSym 0) _ hA _ hB rfl rfl
      (by decide)

/-! ## Claim C3: the Scenario A run

The separation forces are irrational (square roots), so each of the eleven
force events of the run is settled by interval arithmetic: the relevant
`√5, √8, √10, √13, √18` are bracketed tightly enough that every
`Math.round` argument is pinned between two integers.  All remaining
steps are fixed points, and iterations 3-49 leave the separation's fixed
point untouched. -/

theorem sepStepAt_force {cfg : DungeonConfig} {cands : List Room} {i : ℕ} {r : Room}
    {nx ny : ℤ} (hc : cands[i]? = some r)
    (hx : clampPos 1 (cfg.dungeonWidth - r.width - 1)
        (jsRound ((r.x : ℝ) + (forceOfTerms (sepTerms cands i)).1)) = nx)
    (hy : clampPos 1 (cfg.dungeonHeight - r.height - 1)
        (jsRound ((r.y : ℝ) + (forceOfTerms (sepTerms cands i)).2)) = ny) :
    sepStepAt cfg cands i = cands.set i { r with x := nx, y := ny } := by
  unfold sepStepAt
  rw [hc]
  dsimp only
  rw [hx, hy]

theorem sepStepAt_id2 {cfg : DungeonConfig} {cands : List Room} {i : ℕ}
    (h1 : sepTerms cands i = [])
    (h2 : (match cands[i]? with
           | none => true
           | some r => decide (inClampRange cfg r)) = true) :
    sepStepAt cfg cands i = cands := by
  apply sepStepAt_id h1
  intro r hr
  rw [hr] at h2
  simpa using h2

theorem clampPos_jsRound_eq {lo hi k m : ℤ} {v : ℝ}
    (h1 : (k : ℝ) ≤ v + 1 / 2) (h2 : v + 1 / 2 < (k : ℝ) + 1)
    (h3 : clampPos lo hi k = m) :
    clampPos lo hi (jsRound v) = m := by
  rw [jsRound_eq h1 h2, h3]

theorem termForce_eval (dx dy : ℚ) (h : dx ^ 2 + dy ^ 2 ≠ 0) :
    termForce (dx, dy) = ((dx : ℝ) / Real.sqrt (((dx ^ 2 + dy ^ 2 : ℚ)) : ℝ) * 2,
      (dy : ℝ) / Real.sqrt (((dx ^ 2 + dy ^ 2 : ℚ)) : ℝ) * 2) := by
  unfold termForce
  dsimp only
  rw [if_neg h]

theorem forceOfTerms_one (t : ℚ × ℚ) :
    forceOfTerms [t] = ((termForce t).1, (termForce t).2) := by
  unfold forceOfTerms
  simp

theorem forceOfTerms_two (t1 t2 : ℚ × ℚ) :
    forceOfTerms [t1, t2] =
      ((termForce t1).1 + (termForce t2).1, (termForce t1).2 + (termForce t2).2) := by
  unfold forceOfTerms
  simp

theorem sqrt4_eq : Real.sqrt 4 = 2 := by
  rw [show (4:ℝ) = 2 ^ 2 by norm_num]
  exact Real.sqrt_sq (by norm_num)

theorem sqrt5_gt : (2.2 : ℝ) < Real.sqrt 5 := by
  rw [Real.lt_sqrt (by norm_num)]; norm_num

theorem sqrt5_lt : Real.sqrt 5 < 2.3 := by
  rw [Real.sqrt_lt' (by norm_num)]; norm_num

theorem sqrt8_gt : (2.8 : ℝ) < Real.sqrt 8 := by
  rw [Real.lt_sqrt (by norm_num)]; norm_num

theorem sqrt8_lt : Real.sqrt 8 < 2.9 := by
  rw [Real.sqrt_lt' (by norm_num)]; norm_num

theorem sqrt10_gt : (3.1 : ℝ) < Real.sqrt 10 := by
  rw [Real.lt_sqrt (by norm_num)]; norm_num

theorem sqrt10_lt : Real.sqrt 10 < 3.2 := by
  rw [Real.sqrt_lt' (by norm_num)]; norm_num

theorem sqrt13_gt : (3.6 : ℝ) < Real.sqrt 13 := by
  rw [Real.lt_sqrt (by norm_num)]; norm_num

theorem sqrt13_lt : Real.sqrt 13 < 3.7 := by
  rw [Real.sqrt_lt' (by norm_num)]; norm_num

theorem sqrt18_gt : (4.2 : ℝ) < Real.sqrt 18 := by
  rw [Real.lt_sqrt (by norm_num)]; norm_num

theorem sqrt18_lt : Real.sqrt 18 < 4.3 := by
  rw [Real.sqrt_lt' (by norm_num)]; norm_num

theorem scenA_step_0_0 : sepStepAt cfgScenA scenA0 0 = scenM1 := by
  have h5g : (2.2 : ℝ) < Real.sqrt 5 := sqrt5_gt
  have h5l : Real.sqrt 5 < 2.3 := sqrt5_lt
  have h5p : (0 : ℝ) < Real.sqrt 5 := by linarith
  have d45l : (1.5 : ℝ) < 4 / Real.sqrt 5 := by rw [lt_div_iff₀ h5p]; nlinarith
  have d45h : (4 : ℝ) / Real.sqrt 5 < 2.5 := by rw [div_lt_iff₀ h5p]; nlinarith
  have d25l : (0.5 : ℝ) < 2 / Real.sqrt 5 := by rw [lt_div_iff₀ h5p]; nlinarith
  have d25h : (2 : ℝ) / Real.sqrt 5 < 1.5 := by rw [div_lt_iff₀ h5p]; nlinarith
  have hfx : (forceOfTerms (sepTerms scenA0 0)).1 = -(4 / Real.sqrt 5) := by
    rw [show sepTerms scenA0 0 = [(0, 2), (-2, 1)] from by decide, forceOfTerms_two,
      termForce_eval 0 2 (by norm_num), termForce_eval (-2) 1 (by norm_num)]
    dsimp only
    rw [show ((0:ℚ) ^ 2 + 2 ^ 2 : ℚ) = 4 from by norm_num, show (((-2):ℚ) ^ 2 + 1 ^ 2 : ℚ) = 5 from by norm_num]
    push_cast
    rw [sqrt4_eq]
    ring
  have hfy : (forceOfTerms (sepTerms scenA0 0)).2 = 2 + 2 / Real.sqrt 5 := by
    rw [show sepTerms scenA0 0 = [(0, 2), (-2, 1)] from by decide, forceOfTerms_two,
      termForce_eval 0 2 (by norm_num), termForce_eval (-2) 1 (by norm_num)]
    dsimp only
    rw [show ((0:ℚ) ^ 2 + 2 ^ 2 : ℚ) = 4 from by norm_num, show (((-2):ℚ) ^ 2 + 1 ^ 2 : ℚ) = 5 from by norm_num]
    push_cast
    rw [sqrt4_eq]
    ring
  refine (sepStepAt_force (show scenA0[0]? = some (scenRoom 0 12 9) from by decide)
    (clampPos_jsRound_eq (k := 10) (m := 10) ?_ ?_ (by decide))
    (clampPos_jsRound_eq (k := 12) (m := 12) ?_ ?_ (by decide))).trans (by decide)
  · rw [hfx]; push_cast [scenRoom]; linarith
  · rw [hfx]; push_cast [scenRoom]; linarith
  · rw [hfy]; push_cast [scenRoom]; linarith
  · rw [hfy]; push_cast [scenRoom]; linarith

theorem scenA_step_0_2 : sepStepAt cfgScenA scenM1 2 = scenM2 := by
  have h10g : (3.1 : ℝ) < Real.sqrt 10 := sqrt10_gt
  have h10l : Real.sqrt 10 < 3.2 := sqrt10_lt
  have h10p : (0 : ℝ) < Real.sqrt 10 := by linarith
  have d610l : (1.5 : ℝ) < 6 / Real.sqrt 10 := by rw [lt_div_iff₀ h10p]; nlinarith
  have d610h : (6 : ℝ) / Real.sqrt 10 < 2.5 := by rw [div_lt_iff₀ h10p]; nlinarith
  have d210l : (0.5 : ℝ) < 2 / Real.sqrt 10 := by rw [lt_div_iff₀ h10p]; nlinarith
  have d210h : (2 : ℝ) / Real.sqrt 10 < 1.5 := by rw [div_lt_iff₀ h10p]; nlinarith
  have hfx : (forceOfTerms (sepTerms scenM1 2)).1 = -(6 / Real.sqrt 10) := by
    rw [show sepTerms scenM1 2 = [(-3, 1)] from by decide, forceOfTerms_one,
      termForce_eval (-3) 1 (by norm_num)]
    dsimp only
    rw [show (((-3):ℚ) ^ 2 + 1 ^ 2 : ℚ) = 10 from by norm_num]
    push_cast
    ring
  have hfy : (forceOfTerms (sepTerms scenM1 2)).2 = 2 / Real.sqrt 10 := by
    rw [show sepTerms scenM1 2 = [(-3, 1)] from by decide, forceOfTerms_one,
      termForce_eval (-3) 1 (by norm_num)]
    dsimp only
    rw [show (((-3):ℚ) ^ 2 + 1 ^ 2 : ℚ) = 10 from by norm_num]
    push_cast
    ring
  refine (sepStepAt_force (show scenM1[2]? = some (scenRoom 2 5 12) from by decide)
    (clampPos_jsRound_eq (k := 3) (m := 3) ?_ ?_ (by decide))
    (clampPos_jsRound_eq (k := 13) (m := 13) ?_ ?_ (by decide))).trans (by decide)
  · rw [hfx]; push_cast [scenRoom]; linarith
  · rw [hfx]; push_cast [scenRoom]; linarith
  · rw [hfy]; push_cast [scenRoom]; linarith
  · rw [hfy]; push_cast [scenRoom]; linarith

theorem scenA_step_0_3 : sepStepAt cfgScenA scenM2 3 = scenM3 := by
  have hfx : (forceOfTerms (sepTerms scenM2 3)).1 = 2 := by
    rw [show sepTerms scenM2 3 = [(1, 0)] from by decide, forceOfTerms_one,
      termForce_eval 1 0 (by norm_num)]
    dsimp only
    rw [show ((1:ℚ) ^ 2 + 0 ^ 2 : ℚ) = 1 from by norm_num]
    push_cast
    rw [Real.sqrt_one]
    ring
  have hfy : (forceOfTerms (sepTerms scenM2 3)).2 = 0 := by
    rw [show sepTerms scenM2 3 = [(1, 0)] from by decide, forceOfTerms_one,
      termForce_eval 1 0 (by norm_num)]
    dsimp only
    rw [show ((1:ℚ) ^ 2 + 0 ^ 2 : ℚ) = 1 from by norm_num]
    push_cast
    rw [Real.sqrt_one]
    ring
  refine (sepStepAt_force (show scenM2[3]? = some (scenRoom 3 14 3) from by decide)
    (clampPos_jsRound_eq (k := 16) (m := 15) ?_ ?_ (by decide))
    (clampPos_jsRound_eq (k := 3) (m := 3) ?_ ?_ (by decide))).trans (by decide)
  · rw [hfx]; push_cast [scenRoom]; norm_num
  · rw [hfx]; push_cast [scenRoom]; norm_num
  · rw [hfy]; push_cast [scenRoom]; norm_num
  · rw [hfy]; push_cast [scenRoom]; norm_num

theorem scenA_step_0_4 : sepStepAt cfgScenA scenM3 4 = scenM4 := by
  have hfx : (forceOfTerms (sepTerms scenM3 4)).1 = -2 := by
    rw [show sepTerms scenM3 4 = [(-2, 0)] from by decide, forceOfTerms_one,
      termForce_eval (-2) 0 (by norm_num)]
    dsimp only
    rw [show (((-2):ℚ) ^ 2 + 0 ^ 2 : ℚ) = 4 from by norm_num]
    push_cast
    rw [sqrt4_eq]
    ring
  have hfy : (forceOfTerms (sepTerms scenM3 4)).2 = 0 := by
    rw [show sepTerms scenM3 4 = [(-2, 0)] from by decide, forceOfTerms_one,
      termForce_eval (-2) 0 (by norm_num)]
    dsimp only
    rw [show (((-2):ℚ) ^ 2 + 0 ^ 2 : ℚ) = 4 from by norm_num]
    push_cast
    rw [sqrt4_eq]
    ring
  refine (sepStepAt_force (show scenM3[4]? = some (scenRoom 4 13 3) from by decide)
    (clampPos_jsRound_eq (k := 11) (m := 11) ?_ ?_ (by decide))
    (clampPos_jsRound_eq (k := 3) (m := 3) ?_ ?_ (by decide))).trans (by decide)
  · rw [hfx]; push_cast [scenRoom]; norm_num
  · rw [hfx]; push_cast [scenRoom]; norm_num
  · rw [hfy]; push_cast [scenRoom]; norm_num
  · rw [hfy]; push_cast [scenRoom]; norm_num

theorem scenA_step_0_5 : sepStepAt cfgScenA scenM4 5 = scenM5 := by
  have h5g : (2.2 : ℝ) < Real.sqrt 5 := sqrt5_gt
  have h5l : Real.sqrt 5 < 2.3 := sqrt5_lt
  have h5p : (0 : ℝ) < Real.sqrt 5 := by linarith
  have d45l : (1.5 : ℝ) < 4 / Real.sqrt 5 := by rw [lt_div_iff₀ h5p]; nlinarith
  have d45h : (4 : ℝ) / Real.sqrt 5 < 2.5 := by rw [div_lt_iff₀ h5p]; nlinarith
  have d25l : (0.5 : ℝ) < 2 / Real.sqrt 5 := by rw [lt_div_iff₀ h5p]; nlinarith
  have d25h : (2 : ℝ) / Real.sqrt 5 < 1.5 := by rw [div_lt_iff₀ h5p]; nlinarith
  have hfx : (forceOfTerms (sepTerms scenM4 5)).1 = -(4 / Real.sqrt 5) := by
    rw [show sepTerms scenM4 5 = [(-2, -1)] from by decide, forceOfTerms_one,
      termForce_eval (-2) (-1) (by norm_num)]
    dsimp only
    rw [show (((-2):ℚ) ^ 2 + (-1) ^ 2 : ℚ) = 5 from by norm_num]
    push_cast
    ring
  have hfy : (forceOfTerms (sepTerms scenM4 5)).2 = -(2 / Real.sqrt 5) := by
    rw [show sepTerms scenM4 5 = [(-2, -1)] from by decide, forceOfTerms_one,
      termForce_eval (-2) (-1) (by norm_num)]
    dsimp only
    rw [show (((-2):ℚ) ^ 2 + (-1) ^ 2 : ℚ) = 5 from by norm_num]
    push_cast
    ring
  refine (sepStepAt_force (show scenM4[5]? = some (scenRoom 5 8 11) from by decide)
    (clampPos_jsRound_eq (k := 6) (m := 6) ?_ ?_ (by decide))
    (clampPos_jsRound_eq (k := 10) (m := 10) ?_ ?_ (by decide))).trans (by decide)
  · rw [hfx]; push_cast [scenRoom]; linarith
  · rw [hfx]; push_cast [scenRoom]; linarith
  · rw [hfy]; push_cast [scenRoom]; linarith
  · rw [hfy]; push_cast [scenRoom]; linarith

theorem scenA_step_0_6 : sepStepAt cfgScenA scenM5 6 = scenA1 := by
  have h5g : (2.2 : ℝ) < Real.sqrt 5 := sqrt5_gt
  have h5l : Real.sqrt 5 < 2.3 := sqrt5_lt
  have h5p : (0 : ℝ) < Real.sqrt 5 := by linarith
  have d45l : (1.5 : ℝ) < 4 / Real.sqrt 5 := by rw [lt_div_iff₀ h5p]; nlinarith
  have d45h : (4 : ℝ) / Real.sqrt 5 < 2.5 := by rw [div_lt_iff₀ h5p]; nlinarith
  have d25l : (0.5 : ℝ) < 2 / Real.sqrt 5 := by rw [lt_div_iff₀ h5p]; nlinarith
  have d25h : (2 : ℝ) / Real.sqrt 5 < 1.5 := by rw [div_lt_iff₀ h5p]; nlinarith
  have hfx : (forceOfTerms (sepTerms scenM5 6)).1 = -(4 / Real.sqrt 5) := by
    rw [show sepTerms scenM5 6 = [(-2, -1)] from by decide, forceOfTerms_one,
      termForce_eval (-2) (-1) (by norm_num)]
    dsimp only
    rw [show (((-2):ℚ) ^ 2 + (-1) ^ 2 : ℚ) = 5 from by norm_num]
    push_cast
    ring
  have hfy : (forceOfTerms (sepTerms scenM5 6)).2 = -(2 / Real.sqrt 5) := by
    rw [show sepTerms scenM5 6 = [(-2, -1)] from by decide, forceOfTerms_one,
      termForce_eval (-2) (-1) (by norm_num)]
    dsimp only
    rw [show (((-2):ℚ) ^ 2 + (-1) ^ 2 : ℚ) = 5 from by norm_num]
    push_cast
    ring
  refine (sepStepAt_force (show scenM5[6]? = some (scenRoom 6 12 7) from by decide)
    (clampPos_jsRound_eq (k := 10) (m := 10) ?_ ?_ (by decide))
    (clampPos_jsRound_eq (k := 6) (m := 6) ?_ ?_ (by decide))).trans (by decide)
  · rw [hfx]; push_cast [scenRoom]; linarith
  · rw [hfx]; push_cast [scenRoom]; linarith
  · rw [hfy]; push_cast [scenRoom]; linarith
  · rw [hfy]; push_cast [scenRoom]; linarith

theorem scenA_step_1_1 : sepStepAt cfgScenA scenA1 1 = scenN1 := by
  have h8g : (2.8 : ℝ) < Real.sqrt 8 := sqrt8_gt
  have h8l : Real.sqrt 8 < 2.9 := sqrt8_lt
  have h8p : (0 : ℝ) < Real.sqrt 8 := by linarith
  have d48l : (0.5 : ℝ) < 4 / Real.sqrt 8 := by rw [lt_div_iff₀ h8p]; nlinarith
  have d48h : (4 : ℝ) / Real.sqrt 8 < 1.5 := by rw [div_lt_iff₀ h8p]; nlinarith
  have hfx : (forceOfTerms (sepTerms scenA1 1)).1 = -(4 / Real.sqrt 8) := by
    rw [show sepTerms scenA1 1 = [(-2, -2)] from by decide, forceOfTerms_one,
      termForce_eval (-2) (-2) (by norm_num)]
    dsimp only
    rw [show (((-2):ℚ) ^ 2 + (-2) ^ 2 : ℚ) = 8 from by norm_num]
    push_cast
    ring
  have hfy : (forceOfTerms (sepTerms scenA1 1)).2 = -(4 / Real.sqrt 8) := by
    rw [show sepTerms scenA1 1 = [(-2, -2)] from by decide, forceOfTerms_one,
      termForce_eval (-2) (-2) (by norm_num)]
    dsimp only
    rw [show (((-2):ℚ) ^ 2 + (-2) ^ 2 : ℚ) = 8 from by norm_num]
    push_cast
    ring
  refine (sepStepAt_force (show scenA1[1]? = some (scenRoom 1 1 11) from by decide)
    (clampPos_jsRound_eq (k := 0) (m := 1) ?_ ?_ (by decide))
    (clampPos_jsRound_eq (k := 10) (m := 10) ?_ ?_ (by decide))).trans (by decide)
  · rw [hfx]; push_cast [scenRoom]; linarith
  · rw [hfx]; push_cast [scenRoom]; linarith
  · rw [hfy]; push_cast [scenRoom]; linarith
  · rw [hfy]; push_cast [scenRoom]; linarith

theorem scenA_step_1_2 : sepStepAt cfgScenA scenN1 2 = scenN2 := by
  have h13g : (3.6 : ℝ) < Real.sqrt 13 := sqrt13_gt
  have h13l : Real.sqrt 13 < 3.7 := sqrt13_lt
  have h13p : (0 : ℝ) < Real.sqrt 13 := by linarith
  have h18g : (4.2 : ℝ) < Real.sqrt 18 := sqrt18_gt
  have h18l : Real.sqrt 18 < 4.3 := sqrt18_lt
  have h18p : (0 : ℝ) < Real.sqrt 18 := by linarith
  have d413l : (1.0 : ℝ) < 4 / Real.sqrt 13 := by rw [lt_div_iff₀ h13p]; nlinarith
  have d413h : (4 : ℝ) / Real.sqrt 13 < 1.2 := by rw [div_lt_iff₀ h13p]; nlinarith
  have d613l : (1.62 : ℝ) < 6 / Real.sqrt 13 := by rw [lt_div_iff₀ h13p]; nlinarith
  have d613h : (6 : ℝ) / Real.sqrt 13 < 1.67 := by rw [div_lt_iff₀ h13p]; nlinarith
  have d618l : (1.39 : ℝ) < 6 / Real.sqrt 18 := by rw [lt_div_iff₀ h18p]; nlinarith
  have d618h : (6 : ℝ) / Real.sqrt 18 < 1.43 := by rw [div_lt_iff₀ h18p]; nlinarith
  have hfx : (forceOfTerms (sepTerms scenN1 2)).1 = 4 / Real.sqrt 13 - 6 / Real.sqrt 18 := by
    rw [show sepTerms scenN1 2 = [(2, 3), (-3, 3)] from by decide, forceOfTerms_two,
      termForce_eval 2 3 (by norm_num), termForce_eval (-3) 3 (by norm_num)]
    dsimp only
    rw [show ((2:ℚ) ^ 2 + 3 ^ 2 : ℚ) = 13 from by norm_num, show (((-3):ℚ) ^ 2 + 3 ^ 2 : ℚ) = 18 from by norm_num]
    push_cast
    ring
  have hfy : (forceOfTerms (sepTerms scenN1 2)).2 = 6 / Real.sqrt 13 + 6 / Real.sqrt 18 := by
    rw [show sepTerms scenN1 2 = [(2, 3), (-3, 3)] from by decide, forceOfTerms_two,
      termForce_eval 2 3 (by norm_num), termForce_eval (-3) 3 (by norm_num)]
    dsimp only
    rw [show ((2:ℚ) ^ 2 + 3 ^ 2 : ℚ) = 13 from by norm_num, show (((-3):ℚ) ^ 2 + 3 ^ 2 : ℚ) = 18 from by norm_num]
    push_cast
    ring
  refine (sepStepAt_force (show scenN1[2]? = some (scenRoom 2 3 13) from by decide)
    (clampPos_jsRound_eq (k := 3) (m := 3) ?_ ?_ (by decide))
    (clampPos_jsRound_eq (k := 16) (m := 15) ?_ ?_ (by decide))).trans (by decide)
  · rw [hfx]; push_cast [scenRoom]; linarith
  · rw [hfx]; push_cast [scenRoom]; linarith
  · rw [hfy]; push_cast [scenRoom]; linarith
  · rw [hfy]; push_cast [scenRoom]; linarith

theorem scenA_step_1_4 : sepStepAt cfgScenA scenN2 4 = scenA2 := by
  have h10g : (3.1 : ℝ) < Real.sqrt 10 := sqrt10_gt
  have h10l : Real.sqrt 10 < 3.2 := sqrt10_lt
  have h10p : (0 : ℝ) < Real.sqrt 10 := by linarith
  have d610l : (1.5 : ℝ) < 6 / Real.sqrt 10 := by rw [lt_div_iff₀ h10p]; nlinarith
  have d610h : (6 : ℝ) / Real.sqrt 10 < 2.5 := by rw [div_lt_iff₀ h10p]; nlinarith
  have d210l : (0.5 : ℝ) < 2 / Real.sqrt 10 := by rw [lt_div_iff₀ h10p]; nlinarith
  have d210h : (2 : ℝ) / Real.sqrt 10 < 1.5 := by rw [div_lt_iff₀ h10p]; nlinarith
  have hfx : (forceOfTerms (sepTerms scenN2 4)).1 = 2 / Real.sqrt 10 := by
    rw [show sepTerms scenN2 4 = [(1, -3)] from by decide, forceOfTerms_one,
      termForce_eval 1 (-3) (by norm_num)]
    dsimp only
    rw [show ((1:ℚ) ^ 2 + (-3) ^ 2 : ℚ) = 10 from by norm_num]
    push_cast
    ring
  have hfy : (forceOfTerms (sepTerms scenN2 4)).2 = -(6 / Real.sqrt 10) := by
    rw [show sepTerms scenN2 4 = [(1, -3)] from by decide, forceOfTerms_one,
      termForce_eval 1 (-3) (by norm_num)]
    dsimp only
    rw [show ((1:ℚ) ^ 2 + (-3) ^ 2 : ℚ) = 10 from by norm_num]
    push_cast
    ring
  refine (sepStepAt_force (show scenN2[4]? = some (scenRoom 4 11 3) from by decide)
    (clampPos_jsRound_eq (k := 12) (m := 12) ?_ ?_ (by decide))
    (clampPos_jsRound_eq (k := 1) (m := 1) ?_ ?_ (by decide))).trans (by decide)
  · rw [hfx]; push_cast [scenRoom]; linarith
  · rw [hfx]; push_cast [scenRoom]; linarith
  · rw [hfy]; push_cast [scenRoom]; linarith
  · rw [hfy]; push_cast [scenRoom]; linarith

theorem scenA_step_2_3 : sepStepAt cfgScenA scenA2 3 = scenP1 := by
  have h13g : (3.6 : ℝ) < Real.sqrt 13 := sqrt13_gt
  have h13l : Real.sqrt 13 < 3.7 := sqrt13_lt
  have h13p : (0 : ℝ) < Real.sqrt 13 := by linarith
  have d413l : (1.0 : ℝ) < 4 / Real.sqrt 13 := by rw [lt_div_iff₀ h13p]; nlinarith
  have d413h : (4 : ℝ) / Real.sqrt 13 < 1.2 := by rw [div_lt_iff₀ h13p]; nlinarith
  have d613l : (1.62 : ℝ) < 6 / Real.sqrt 13 := by rw [lt_div_iff₀ h13p]; nlinarith
  have d613h : (6 : ℝ) / Real.sqrt 13 < 1.67 := by rw [div_lt_iff₀ h13p]; nlinarith
  have hfx : (forceOfTerms (sepTerms scenA2 3)).1 = 6 / Real.sqrt 13 := by
    rw [show sepTerms scenA2 3 = [(3, 2)] from by decide, forceOfTerms_one,
      termForce_eval 3 2 (by norm_num)]
    dsimp only
    rw [show ((3:ℚ) ^ 2 + 2 ^ 2 : ℚ) = 13 from by norm_num]
    push_cast
    ring
  have hfy : (forceOfTerms (sepTerms scenA2 3)).2 = 4 / Real.sqrt 13 := by
    rw [show sepTerms scenA2 3 = [(3, 2)] from by decide, forceOfTerms_one,
      termForce_eval 3 2 (by norm_num)]
    dsimp only
    rw [show ((3:ℚ) ^ 2 + 2 ^ 2 : ℚ) = 13 from by norm_num]
    push_cast
    ring
  refine (sepStepAt_force (show scenA2[3]? = some (scenRoom 3 15 3) from by decide)
    (clampPos_jsRound_eq (k := 17) (m := 15) ?_ ?_ (by decide))
    (clampPos_jsRound_eq (k := 4) (m := 4) ?_ ?_ (by decide))).trans (by decide)
  · rw [hfx]; push_cast [scenRoom]; linarith
  · rw [hfx]; push_cast [scenRoom]; linarith
  · rw [hfy]; push_cast [scenRoom]; linarith
  · rw [hfy]; push_cast [scenRoom]; linarith

theorem scenA_step_2_4 : sepStepAt cfgScenA scenP1 4 = scenA3 := by
  have h18g : (4.2 : ℝ) < Real.sqrt 18 := sqrt18_gt
  have h18l : Real.sqrt 18 < 4.3 := sqrt18_lt
  have h18p : (0 : ℝ) < Real.sqrt 18 := by linarith
  have d618l : (1.39 : ℝ) < 6 / Real.sqrt 18 := by rw [lt_div_iff₀ h18p]; nlinarith
  have d618h : (6 : ℝ) / Real.sqrt 18 < 1.43 := by rw [div_lt_iff₀ h18p]; nlinarith
  have hfx : (forceOfTerms (sepTerms scenP1 4)).1 = -(6 / Real.sqrt 18) := by
    rw [show sepTerms scenP1 4 = [(-3, -3)] from by decide, forceOfTerms_one,
      termForce_eval (-3) (-3) (by norm_num)]
    dsimp only
    rw [show (((-3):ℚ) ^ 2 + (-3) ^ 2 : ℚ) = 18 from by norm_num]
    push_cast
    ring
  have hfy : (forceOfTerms (sepTerms scenP1 4)).2 = -(6 / Real.sqrt 18) := by
    rw [show sepTerms scenP1 4 = [(-3, -3)] from by decide, forceOfTerms_one,
      termForce_eval (-3) (-3) (by norm_num)]
    dsimp only
    rw [show (((-3):ℚ) ^ 2 + (-3) ^ 2 : ℚ) = 18 from by norm_num]
    push_cast
    ring
  refine (sepStepAt_force (show scenP1[4]? = some (scenRoom 4 12 1) from by decide)
    (clampPos_jsRound_eq (k := 11) (m := 11) ?_ ?_ (by decide))
    (clampPos_jsRound_eq (k := 0) (m := 1) ?_ ?_ (by decide))).trans (by decide)
  · rw [hfx]; push_cast [scenRoom]; linarith
  · rw [hfx]; push_cast [scenRoom]; linarith
  · rw [hfy]; push_cast [scenRoom]; linarith
  · rw [hfy]; push_cast [scenRoom]; linarith

theorem scenA_pass0 : sepPass cfgScenA scenA0 = scenA1 := by
  unfold sepPass
  rw [show List.range scenA0.length = [0, 1, 2, 3, 4, 5, 6, 7, 8] from by decide]
  simp only [List.foldl_cons, List.foldl_nil]
  rw [scenA_step_0_0,
      show sepStepAt cfgScenA scenM1 1 = scenM1 from sepStepAt_id2 (by decide) (by decide),
      scenA_step_0_2, scenA_step_0_3, scenA_step_0_4, scenA_step_0_5, scenA_step_0_6,
      show sepStepAt cfgScenA scenA1 7 = scenA1 from sepStepAt_id2 (by decide) (by decide),
      show sepStepAt cfgScenA scenA1 8 = scenA1 from sepStepAt_id2 (by decide) (by decide)]

theorem scenA_pass1 : sepPass cfgScenA scenA1 = scenA2 := by
  unfold sepPass
  rw [show List.range scenA1.length = [0, 1, 2, 3, 4, 5, 6, 7, 8] from by decide]
  simp only [List.foldl_cons, List.foldl_nil]
  rw [show sepStepAt cfgScenA scenA1 0 = scenA1 from sepStepAt_id2 (by decide) (by decide),
      scenA_step_1_1, scenA_step_1_2,
      show sepStepAt cfgScenA scenN2 3 = scenN2 from sepStepAt_id2 (by decide) (by decide),
      scenA_step_1_4,
      show sepStepAt cfgScenA scenA2 5 = scenA2 from sepStepAt_id2 (by decide) (by decide),
      show sepStepAt cfgScenA scenA2 6 = scenA2 from sepStepAt_id2 (by decide) (by decide),
      show sepStepAt cfgScenA scenA2 7 = scenA2 from sepStepAt_id2 (by decide) (by decide),
      show sepStepAt cfgScenA scenA2 8 = scenA2 from sepStepAt_id2 (by decide) (by decide)]

theorem scenA_pass2 : sepPass cfgScenA scenA2 = scenA3 := by
  unfold sepPass
  rw [show List.range scenA2.length = [0, 1, 2, 3, 4, 5, 6, 7, 8] from by decide]
  simp only [List.foldl_cons, List.foldl_nil]
  rw [show sepStepAt cfgScenA scenA2 0 = scenA2 from sepStepAt_id2 (by decide) (by decide),
      show sepStepAt cfgScenA scenA2 1 = scenA2 from sepStepAt_id2 (by decide) (by decide),
      show sepStepAt cfgScenA scenA2 2 = scenA2 from sepStepAt_id2 (by decide) (by decide),
      scenA_step_2_3, scenA_step_2_4,
      show sepStepAt cfgScenA scenA3 5 = scenA3 from sepStepAt_id2 (by decide) (by decide),
      show sepStepAt cfgScenA scenA3 6 = scenA3 from sepStepAt_id2 (by decide) (by decide),
      show sepStepAt cfgScenA scenA3 7 = scenA3 from sepStepAt_id2 (by decide) (by decide),
      show sepStepAt cfgScenA scenA3 8 = scenA3 from sepStepAt_id2 (by decide) (by decide)]

theorem scenA_sep : applySpatialSeparation cfgScenA scenA0 = scenA3 := by
  unfold applySpatialSeparation
  have h3 : (sepPass cfgScenA)^[3] scenA0 = scenA3 := by
    rw [show ((sepPass cfgScenA)^[3]) scenA0 =
      sepPass cfgScenA (sepPass cfgScenA (sepPass cfgScenA scenA0)) from rfl]
    rw [scenA_pass0, scenA_pass1, scenA_pass2]
  rw [show (50 : ℕ) = 47 + 3 from rfl, Function.iterate_add_apply, h3]
  exact Function.iterate_fixed (sepPass_id (by decide)) 47


theorem scenA_sep_gen :
    applySpatialSeparation (mkGenerator cfgScenA 0).config
      (genCandidates (mkGenerator cfgScenA 0).config (mkGenerator cfgScenA 0).rng).2.1 =
      scenA3 := by
  rw [show (mkGenerator cfgScenA 0).config = cfgScenA from rfl,
      show (mkGenerator cfgScenA 0).rng = 42 from rfl,
      show (genCandidates cfgScenA 42).2.1 = scenA0 from by decide]
  exact scenA_sep

/-- C3, counterexample.  Scenario A (20×20, three 4×4 rooms, seed 42) does
produce exactly 3 Room-kind rooms from exactly 2 spanning-tree edges, but
not one door per edge: `placeDoors` walks every room and places one door
per entry of its `connectedTo` list, and both endpoint rooms of an edge
list each other, so the run places 4 doors, not 2. -/
theorem scenario_a_doors_not_one_per_edge :
    ((generate false (mkGenerator cfgScenA 0)).1.rooms.filter
        (fun r => r.type == RoomType.room)).length = 3 ∧
    (generateMinimumSpanningTree (selectBestRooms cfgScenA scenA3 3)).2 =
      [(0, 2), (2, 1)] ∧
    (generate false (mkGenerator cfgScenA 0)).1.doors.length ≠ 2 := by
  refine ⟨?_, by decide, ?_⟩
  · rw [generate_given_eq false scenA_sep_gen]
    decide
  · rw [generate_given_eq false scenA_sep_gen]
    decide

/-- C3, amended.  Scenario A yields exactly 3 Room-kind rooms, exactly the
2 spanning-tree edges `(0,2)` and `(2,1)`, no extra complexity edges
(`floor(5·0) = 0` attempts), and one door per (room, listed connection)
pair - two per edge, 4 doors in total. -/
theorem scenario_a_exact_counts :
    ((generate false (mkGenerator cfgScenA 0)).1.rooms.filter
        (fun r => r.type == RoomType.room)).length = 3 ∧
    (generateMinimumSpanningTree (selectBestRooms cfgScenA scenA3 3)).2 =
      [(0, 2), (2, 1)] ∧
    (addComplexityConnections cfgScenA
        (generateMinimumSpanningTree (selectBestRooms cfgScenA scenA3 3)).1
        (generateMinimumSpanningTree (selectBestRooms cfgScenA scenA3 3)).2
        79471).2.1 = [(0, 2), (2, 1)] ∧
    (generate false (mkGenerator cfgScenA 0)).1.doors.length =
      (((generate false (mkGenerator cfgScenA 0)).1.rooms.filter
          (fun r => r.type == RoomType.room)).map
        (fun r => r.connectedTo.length)).sum ∧
    (generate false (mkGenerator cfgScenA 0)).1.doors.length = 4 := by
  refine ⟨?_, by decide, by decide, ?_, ?_⟩
  · rw [generate_given_eq false scenA_sep_gen]
    decide
  · rw [generate_given_eq false scenA_sep_gen]
    decide
  · rw [generate_given_eq false scenA_sep_gen]
    decide

/-! ## Claim C5, counterexample: zero-room first call -/

theorem c5_state_config :
    (generate false (mkGenerator cfgPreserve 0)).2.config = cfgPreserve := by
  rw [generate_given_eq false (applySep_of_fixed (by decide))]
  decide

theorem c5_state_rng : (generate false (mkGenerator cfgPreserve 0)).2.rng = 49297 := by
  rw [generate_given_eq false (applySep_of_fixed (by decide))]
  decide

theorem c5_state_noBase :
    (generate false (mkGenerator cfgPreserve 0)).2.baseRooms = [] := by
  rw [generate_given_eq false (applySep_of_fixed (by decide))]
  decide

/-- C5, counterexample.  With configuration `cfgPreserve` (`minRooms = 0`,
`maxRooms = 1`, seed 0) the first `generate(false)` rolls zero rooms, so the
base-room cache stays empty and the subsequent `generate(true)` falls back
to a fresh room generation with the advanced rng, producing one Room-kind
entity where the first call produced none: the Room-kind ids and bounding
boxes of the two calls differ. -/
theorem preserve_after_zero_rooms_differs :
    ((generate true ((generate false (mkGenerator cfgPreserve 0)).2)).1.rooms.filter
        (fun r => r.type == RoomType.room)).map roomShape ≠
      ((generate false (mkGenerator cfgPreserve 0)).1.rooms.filter
        (fun r => r.type == RoomType.room)).map roomShape := by
  rw [generate_reset_of_noBase true c5_state_noBase, c5_state_config, c5_state_rng]
  rw [generate_given_eq true (applySep_of_fixed (by decide))]
  rw [generate_given_eq false (applySep_of_fixed (by decide))]
  decide

/-! ## Claim C6, counterexample: oversized rooms escape the map -/

/-- C6, counterexample.  `cfgBounds` satisfies the claim's validity
conditions (`minRooms ≤ maxRooms`, `minRoomSize ≤ maxRoomSize`, and a
minimum-size room with a 1-tile margin fits: 8 + 2 ≤ 10), yet the output
contains a Room-kind entity with `x + width > dungeonWidth`: candidate
rooms are rolled up to `maxRoomSize = 30` wide, and for such rooms the
clamp `max(1, min(width - w - 1, ·))` pins the position to 1 without
shrinking the room. -/
theorem room_escapes_map_with_oversize_config :
    ∃ r ∈ (generate false (mkGenerator cfgBounds 0)).1.rooms,
      r.type = RoomType.room ∧
      ¬ (r.x + r.width ≤ cfgBounds.dungeonWidth ∧
         r.y + r.height ≤ cfgBounds.dungeonHeight) := by
  rw [generate_given_eq false (applySep_clamped (by decide))]
  decide

/-- C6, amended.  When additionally `maxRoomSize ≤ dungeonWidth - 2` and
`maxRoomSize ≤ dungeonHeight - 2` (so that every candidate the generator can
roll fits inside the map with a 1-tile margin), every Room-kind entity
returned by `generate(false)` — including rooms produced by merging —
satisfies `0 ≤ x`, `x + width ≤ dungeonWidth`, `0 ≤ y` and
`y + height ≤ dungeonHeight`: every candidate is clamped into
`[1, dim - size - 1]` by the separation passes, selection only keeps
candidates, and a merge replaces two contained boxes by their bounding
box, which is again contained. -/
theorem rooms_contained_when_max_size_fits (st : GenState)
    (h1 : st.config.minRoomSize ≤ st.config.maxRoomSize)
    (h2 : st.config.maxRoomSize ≤ st.config.dungeonWidth - 2)
    (h3 : st.config.maxRoomSize ≤ st.config.dungeonHeight - 2) :
    ∀ r ∈ (generate false st).1.rooms, r.type = RoomType.room →
      roomInMap st.config r := by
  intro r hr hty
  unfold generate at hr
  dsimp only at hr
  rw [if_neg (by simp), placeDoors_rooms] at hr
  obtain ⟨main, suffix, heq, hmain, hsuffix⟩ := connectRooms_shape _
  rw [heq] at hr
  rcases List.mem_append.mp hr with hm | hs
  · have hmem : stripConn r ∈ main.map stripConn := List.mem_map_of_mem _ hm
    rw [hmain] at hmem
    obtain ⟨r0, hr0, hstrip⟩ := List.mem_map.mp hmem
    have hin : roomInMap st.config r0 := generateRooms_inMap h1 h2 h3 r0 hr0
    obtain ⟨hx, hy, hw, hh, _⟩ := stripConn_fields hstrip
    unfold roomInMap at hin ⊢
    omega
  · rw [hsuffix r hs] at hty
    exact absurd hty (by decide)

/-- The amended C6 theorem holds at Scenario A's configuration. -/
theorem rooms_contained_when_max_size_fits_witness :
    cfgScenA.minRoomSize ≤ cfgScenA.maxRoomSize ∧
    cfgScenA.maxRoomSize ≤ cfgScenA.dungeonWidth - 2 ∧
    cfgScenA.maxRoomSize ≤ cfgScenA.dungeonHeight - 2 ∧
    ∀ r ∈ (generate false (mkGenerator cfgScenA 0)).1.rooms,
      r.type = RoomType.room → roomInMap (mkGenerator cfgScenA 0).config r :=
  ⟨by decide, by decide, by decide,
   rooms_contained_when_max_size_fits (mkGenerator cfgScenA 0)
     (by decide) (by decide) (by decide)⟩

/-! ## Claim C7: random source range -/

/-- C7.  The claim asserts `0 ≤ random() < 1` for every seed the generator
can be constructed with, and `randomInt(min,max) ∈ [min,max]` whenever
`min ≤ max`; the `SeededRandom` doc comments promise the same.  The code
violates it: constructed with seed `-6` (any number is accepted), the first
`random()` returns `((-6)*9301 + 49297) % 233280 / 233280 = -6509/233280 < 0`
because the JavaScript `%` keeps the dividend's sign, and consequently
`randomInt(0, 1)` returns `-1 ∉ [0, 1]`. -/
theorem negative_seed_random_out_of_range :
    (randomVal (-6)).1 < 0 ∧ (randomVal (-6)).1 = -6509 / 233280 ∧
      (randomInt (-6) 0 1).1 = -1 := by
  refine ⟨?_, by decide, by decide⟩
  have h : (randomVal (-6)).1 = -6509 / 233280 := by decide
  rw [h]
  norm_num

/-! ## Claim C8: corridor carving geometry -/

theorem intRange_mem {a b v : ℤ} : v ∈ intRange a b ↔ a ≤ v ∧ v < b := by
  unfold intRange
  rw [List.mem_map]
  constructor
  · rintro ⟨k, hk, rfl⟩
    rw [List.mem_range] at hk
    omega
  · rintro ⟨h1, h2⟩
    exact ⟨(v - a).toNat, List.mem_range.mpr (by omega), by omega⟩

theorem tilemapWF_tileSet {cfg : DungeonConfig} {tm : Tilemap}
    (h : tilemapWF cfg tm) (x y v : ℤ) : tilemapWF cfg (tileSet tm x y v) := by
  obtain ⟨hlen, hrow⟩ := h
  by_cases hy : y.toNat < tm.length
  · have hr0 : tm.getD y.toNat [] = tm[y.toNat] := by
      rw [List.getD_eq_getElem?_getD, List.getElem?_eq_getElem hy]
      rfl
    refine ⟨by rw [tileSet, List.length_set]; exact hlen, ?_⟩
    intro row hr
    rcases List.mem_or_eq_of_mem_set hr with hm | he
    · exact hrow row hm
    · subst he
      rw [List.length_set, hr0]
      exact hrow _ (List.getElem_mem hy)
  · rw [tileSet, List.set_eq_of_length_le (by omega)]
    exact ⟨hlen, hrow⟩

theorem isValidTile_bounds {cfg : DungeonConfig} {x y : ℤ}
    (hv : isValidTile cfg x y = true) :
    0 ≤ x ∧ x < cfg.dungeonWidth ∧ 0 ≤ y ∧ y < cfg.dungeonHeight := by
  unfold isValidTile at hv
  simp only [Bool.and_eq_true, decide_eq_true_eq] at hv
  exact ⟨hv.1.1.1, hv.1.1.2, hv.1.2, hv.2⟩

theorem row_length {cfg : DungeonConfig} {tm : Tilemap} (h : tilemapWF cfg tm)
    {y : ℤ} (hy : 0 ≤ y) (hyH : y < cfg.dungeonHeight) :
    (tm.getD y.toNat []).length = cfg.dungeonWidth.toNat := by
  obtain ⟨hlen, hrow⟩ := h
  have hyn : y.toNat < tm.length := by omega
  have hr0 : tm.getD y.toNat [] = tm[y.toNat] := by
    rw [List.getD_eq_getElem?_getD, List.getElem?_eq_getElem hyn]
    rfl
  rw [hr0]
  exact hrow _ (List.getElem_mem hyn)

theorem tileGet_tileSet_self {cfg : DungeonConfig} {tm : Tilemap} {x y : ℤ}
    (h : tilemapWF cfg tm) (hv : isValidTile cfg x y = true) (v : ℤ) :
    tileGet (tileSet tm x y v) x y = v := by
  obtain ⟨hx0, hxW, hy0, hyH⟩ := isValidTile_bounds hv
  have hyn : y.toNat < tm.length := by
    rw [h.1]
    omega
  have hxr : x.toNat < (tm.getD y.toNat []).length := by
    rw [row_length h hy0 hyH]
    omega
  unfold tileGet tileSet
  rw [show (tm.set y.toNat ((tm.getD y.toNat []).set x.toNat v)).getD y.toNat []
        = (tm.getD y.toNat []).set x.toNat v by
      rw [List.getD_eq_getElem?_getD, List.getElem?_set_self hyn, Option.getD_some],
    List.getD_eq_getElem?_getD, List.getElem?_set_self hxr, Option.getD_some]

theorem tileGet_tileSet_ne {cfg : DungeonConfig} {tm : Tilemap} {x y x' y' : ℤ}
    (h : tilemapWF cfg tm) (hv : isValidTile cfg x y = true)
    (hv' : isValidTile cfg x' y' = true) (hne : ¬ (x = x' ∧ y = y')) (v : ℤ) :
    tileGet (tileSet tm x' y' v) x y = tileGet tm x y := by
  obtain ⟨hx0, hxW, hy0, hyH⟩ := isValidTile_bounds hv
  obtain ⟨hx0', hxW', hy0', hyH'⟩ := isValidTile_bounds hv'
  unfold tileGet tileSet
  by_cases hyy : y'.toNat = y.toNat
  · have hysame : y = y' := by omega
    have hxx : x'.toNat ≠ x.toNat := by omega
    have hyn : y.toNat < tm.length := by
      rw [h.1]
      omega
    rw [show (tm.set y'.toNat ((tm.getD y'.toNat []).set x'.toNat v)).getD y.toNat []
          = (tm.getD y'.toNat []).set x'.toNat v by
        rw [List.getD_eq_getElem?_getD, hyy, List.getElem?_set_self hyn, Option.getD_some],
      List.getD_eq_getElem?_getD, List.getElem?_set_ne hxx, ← List.getD_eq_getElem?_getD,
      hysame]
  · rw [show (tm.set y'.toNat ((tm.getD y'.toNat []).set x'.toNat v)).getD y.toNat []
          = tm.getD y.toNat [] by
        rw [List.getD_eq_getElem?_getD, List.getElem?_set_ne hyy,
          ← List.getD_eq_getElem?_getD]]

theorem tilemapWF_writeList {cfg : DungeonConfig} {pts : List (ℤ × ℤ)} {tm : Tilemap}
    (h : tilemapWF cfg tm) : tilemapWF cfg (writeList cfg pts tm) := by
  unfold writeList
  apply foldl_inv h
  intro tm q hq
  split
  · exact tilemapWF_tileSet hq _ _ _
  · exact hq

theorem tileGet_writeList {cfg : DungeonConfig} {x y : ℤ}
    (hv : isValidTile cfg x y = true) :
    ∀ (pts : List (ℤ × ℤ)) (tm : Tilemap), tilemapWF cfg tm →
      tileGet (writeList cfg pts tm) x y =
        if (x, y) ∈ pts then 1 else tileGet tm x y := by
  intro pts
  induction pts with
  | nil => intro tm _; simp [writeList]
  | cons q rest ih =>
    intro tm hwf
    have hstep : writeList cfg (q :: rest) tm =
        writeList cfg rest (if isValidTile cfg q.1 q.2 then tileSet tm q.1 q.2 1 else tm) := rfl
    rw [hstep]
    by_cases hq : (x, y) = q
    · have hq1 : q.1 = x := by rw [← hq]
      have hq2 : q.2 = y := by rw [← hq]
      rw [hq1, hq2, if_pos hv, ih _ (tilemapWF_tileSet hwf _ _ _)]
      by_cases hmem : (x, y) ∈ rest
      · rw [if_pos hmem, if_pos (by simp [hmem])]
      · rw [if_neg hmem, tileGet_tileSet_self hwf hv, if_pos (by simp [← hq])]
    · have hne : ¬ (x = q.1 ∧ y = q.2) := by
        rintro ⟨h1, h2⟩
        exact hq (by rcases q with ⟨qa, qb⟩; simp_all)
      have hcons : ((x, y) ∈ q :: rest) ↔ ((x, y) ∈ rest) := by
        simp [List.mem_cons, hq]
      by_cases hvq : isValidTile cfg q.1 q.2 = true
      · rw [if_pos hvq, ih _ (tilemapWF_tileSet hwf _ _ _)]
        by_cases hmem : (x, y) ∈ rest
        · rw [if_pos hmem, if_pos (hcons.mpr hmem)]
        · rw [if_neg hmem, if_neg (fun hc => hmem (hcons.mp hc)),
              tileGet_tileSet_ne hwf hv hvq hne 1]
      · rw [if_neg hvq, ih _ hwf]
        by_cases hmem : (x, y) ∈ rest
        · rw [if_pos hmem, if_pos (hcons.mpr hmem)]
        · rw [if_neg hmem, if_neg (fun hc => hmem (hcons.mp hc))]

theorem mem_blockPts_iff {cfg : DungeonConfig} {p : ℤ × ℤ} {x y : ℤ} :
    (x, y) ∈ blockPts cfg p ↔ inBlock cfg.corridorWidth p x y := by
  unfold blockPts inBlock
  simp only [List.mem_flatMap, List.mem_map, Prod.mk.injEq]
  constructor
  · rintro ⟨dy, hdy, dx, hdx, hx, hy⟩
    rw [intRange_mem] at hdy hdx
    omega
  · rintro ⟨h1, h2, h3, h4⟩
    exact ⟨y - p.2, intRange_mem.mpr (by omega), x - p.1,
      intRange_mem.mpr (by omega), by omega, by omega⟩

theorem carveCorridor_eq_writeLists (cfg : DungeonConfig) (path : List (ℤ × ℤ))
    (tm : Tilemap) :
    carveCorridor cfg path tm =
      path.foldl (fun tm p => writeList cfg (blockPts cfg p) tm) tm := by
  unfold carveCorridor
  dsimp only
  congr 1
  funext tm p
  unfold writeList blockPts
  rw [List.flatMap_def, List.foldl_flatten, List.foldl_map]
  congr 1
  funext tm dy
  rw [List.foldl_map]

theorem tileGet_carveCorridor {cfg : DungeonConfig} {x y : ℤ}
    (hv : isValidTile cfg x y = true) :
    ∀ (path : List (ℤ × ℤ)) (tm : Tilemap), tilemapWF cfg tm →
      tileGet (carveCorridor cfg path tm) x y =
        if ∃ p ∈ path, inBlock cfg.corridorWidth p x y then 1 else tileGet tm x y := by
  intro path
  induction path with
  | nil =>
    intro tm _
    simp [carveCorridor_eq_writeLists]
  | cons p rest ih =>
    intro tm hwf
    simp only [carveCorridor_eq_writeLists] at ih ⊢
    rw [List.foldl_cons, ih _ (tilemapWF_writeList hwf),
        tileGet_writeList hv _ _ hwf]
    by_cases hrest : ∃ q ∈ rest, inBlock cfg.corridorWidth q x y
    · rw [if_pos hrest, if_pos (by obtain ⟨q, hq1, hq2⟩ := hrest; exact ⟨q, by simp [hq1], hq2⟩)]
    · rw [if_neg hrest]
      by_cases hp : (x, y) ∈ blockPts cfg p
      · rw [if_pos hp, if_pos ⟨p, by simp, mem_blockPts_iff.mp hp⟩]
      · rw [if_neg hp, if_neg]
        rintro ⟨q, hq1, hq2⟩
        rcases List.mem_cons.mp hq1 with rfl | hq1
        · exact hp (mem_blockPts_iff.mpr hq2)
        · exact hrest ⟨q, hq1, hq2⟩

/-- C8.  `carveCorridor` marks, for each path point, exactly the square
block of side `width` whose offsets run from `-floor((width-1)/2)` to
`width - floor((width-1)/2) - 1` on each axis (clipped to map bounds by the
`isValidTile` guard), leaving every other in-bounds tile unchanged; for
`corridorWidth = 1` the carved set is exactly the set of path points. -/
theorem carveCorridor_block_characterization (cfg : DungeonConfig)
    (path : List (ℤ × ℤ)) (tm : Tilemap) (x y : ℤ)
    (hwf : tilemapWF cfg tm) (hv : isValidTile cfg x y = true) :
    (tileGet (carveCorridor cfg path tm) x y =
      if ∃ p ∈ path, inBlock cfg.corridorWidth p x y then 1 else tileGet tm x y) ∧
    (cfg.corridorWidth = 1 →
      tileGet (carveCorridor cfg path tm) x y =
        if (x, y) ∈ path then 1 else tileGet tm x y) := by
  refine ⟨tileGet_carveCorridor hv path tm hwf, fun h1 => ?_⟩
  rw [tileGet_carveCorridor hv path tm hwf]
  congr 1
  simp only [eq_iff_iff]
  constructor
  · rintro ⟨p, hp, hb⟩
    unfold inBlock at hb
    rw [h1] at hb
    norm_num at hb
    have : p = (x, y) := by
      rcases p with ⟨a, b⟩
      simp only [Prod.mk.injEq]
      omega
    rwa [← this]
  · intro hmem
    refine ⟨(x, y), hmem, ?_⟩
    unfold inBlock
    rw [h1]
    norm_num

theorem carveCorridor_block_characterization_witness :
    tilemapWF cfgCarve (initializeTilemap cfgCarve) ∧
    isValidTile cfgCarve 2 1 = true ∧
    ((tileGet (carveCorridor cfgCarve [(1, 1), (2, 1)] (initializeTilemap cfgCarve)) 2 1 =
      if ∃ p ∈ [((1 : ℤ), (1 : ℤ)), (2, 1)], inBlock cfgCarve.corridorWidth p 2 1 then 1
      else tileGet (initializeTilemap cfgCarve) 2 1) ∧
    (cfgCarve.corridorWidth = 1 →
      tileGet (carveCorridor cfgCarve [(1, 1), (2, 1)] (initializeTilemap cfgCarve)) 2 1 =
        if ((2 : ℤ), (1 : ℤ)) ∈ [((1 : ℤ), (1 : ℤ)), (2, 1)] then 1
        else tileGet (initializeTilemap cfgCarve) 2 1)) :=
  ⟨by decide, by decide,
   carveCorridor_block_characterization cfgCarve [(1, 1), (2, 1)]
     (initializeTilemap cfgCarve) 2 1 (by decide) (by decide)⟩

/-! ## Claim C9: failed pathfinding is silent -/

/-- C9.  When the A* search finds no path `findPath` returns `[]`, and then
`generateCorridor` carves no tiles and registers no corridor entity: the
rooms list and the tilemap are returned unchanged (and, the whole embedding
being a total function, `generate` completes normally). -/
theorem generateCorridor_no_path_no_change (cfg : DungeonConfig) (rooms : List Room)
    (tm : Tilemap) (a b : ℕ)
    (h : findPath cfg tm (getRoomCenter (rooms.getD a default))
          (getRoomCenter (rooms.getD b default)) = []) :
    generateCorridor cfg rooms tm a b = (rooms, tm) := by
  unfold generateCorridor
  dsimp only
  rw [h]
  simp

theorem generateCorridor_no_path_no_change_witness :
    findPath cfgTiny (initializeTilemap cfgTiny)
        (getRoomCenter (([{ id := RoomId.room 0, x := 0, y := 0, width := 1, height := 1,
                            type := RoomType.room, connectedTo := [] },
                          { id := RoomId.room 1, x := 2, y := 2, width := 1, height := 1,
                            type := RoomType.room, connectedTo := [] }] : List Room).getD 0 default))
        (getRoomCenter (([{ id := RoomId.room 0, x := 0, y := 0, width := 1, height := 1,
                            type := RoomType.room, connectedTo := [] },
                          { id := RoomId.room 1, x := 2, y := 2, width := 1, height := 1,
                            type := RoomType.room, connectedTo := [] }] : List Room).getD 1 default)) = [] ∧
      generateCorridor cfgTiny
        [{ id := RoomId.room 0, x := 0, y := 0, width := 1, height := 1,
           type := RoomType.room, connectedTo := [] },
         { id := RoomId.room 1, x := 2, y := 2, width := 1, height := 1,
           type := RoomType.room, connectedTo := [] }] (initializeTilemap cfgTiny) 0 1 =
        ([{ id := RoomId.room 0, x := 0, y := 0, width := 1, height := 1,
            type := RoomType.room, connectedTo := [] },
          { id := RoomId.room 1, x := 2, y := 2, width := 1, height := 1,
            type := RoomType.room, connectedTo := [] }], initializeTilemap cfgTiny) :=
  ⟨by decide, generateCorridor_no_path_no_change cfgTiny _ _ 0 1 (by decide)⟩

/-! ## Claim C10: updateConfig re-seeds on every call -/

/-- C10.  `updateConfig` re-seeds the random source from the merged config's
seed on every call (even when the partial update has no seed field, so a
following `generate()` replays the stream from the configured seed), and it
clears the base-room cache exactly when a seed field is supplied. -/
theorem updateConfig_reseeds_always (p : PartialConfig) (now : ℚ) (st : GenState) :
    (updateConfig p now st).rng = (mergeConfig st.config p).seed.getD now ∧
    (updateConfig p now st).config = mergeConfig st.config p ∧
    (p.seed = none → (updateConfig p now st).baseRooms = st.baseRooms ∧
      (mergeConfig st.config p).seed = st.config.seed) ∧
    (p.seed.isSome = true → (updateConfig p now st).baseRooms = []) := by
  refine ⟨rfl, rfl, fun h => ⟨?_, ?_⟩, fun h => ?_⟩
  · simp [updateConfig, h]
  · simp [mergeConfig, h]
  · simp [updateConfig, h]

theorem updateConfig_reseeds_always_witness :
    (updateConfig { complexityLevel := some (9/10) } 5
        ⟨cfgRepeat, 207727, [], [], [],
         [{ id := RoomId.room 0, x := 3, y := 4, width := 2, height := 2,
            type := RoomType.room, connectedTo := [] }]⟩).rng = 1 ∧
    (updateConfig { complexityLevel := some (9/10) } 5
        ⟨cfgRepeat, 207727, [], [], [],
         [{ id := RoomId.room 0, x := 3, y := 4, width := 2, height := 2,
            type := RoomType.room, connectedTo := [] }]⟩).baseRooms =
      [{ id := RoomId.room 0, x := 3, y := 4, width := 2, height := 2,
         type := RoomType.room, connectedTo := [] }] := by
  constructor
  · exact (updateConfig_reseeds_always { complexityLevel := some (9/10) } 5 _).1.trans (by decide)
  · exact ((updateConfig_reseeds_always { complexityLevel := some (9/10) } 5 _).2.2.1 rfl).1

/-! ## Claim C4: the returned snapshot aliases the internal Room objects -/

/-- C4.  In the reference-semantics model of the snapshot construction, the
returned rooms array holds exactly the same object references as the
generator's internal `this.rooms` (the spread copies the array, not the
objects), so a caller's write through a returned room reference is a write
to the very heap cell the generator's internal array points at — the
spec's "independently owned deep copy / no aliasing" demand fails.  The
concrete conjunct shows a caller mutation through snapshot reference 0
being observed through the internal array. -/
theorem snapshot_rooms_alias_internal :
    (∀ g : GenRefs, (snapshotOf g).roomRefs = g.roomRefs) ∧
    (∀ (h : Heap) (g : GenRefs) (k : ℕ) (v : Room),
      (h.write ((snapshotOf g).roomRefs.getD k 0) v).read (g.roomRefs.getD k 0) =
        (h.write (g.roomRefs.getD k 0) v).read (g.roomRefs.getD k 0)) ∧
    ((Heap.write ⟨[default]⟩ ((snapshotOf ⟨[0], []⟩).roomRefs.getD 0 7)
        { id := RoomId.room 9, x := 5, y := 6, width := 7, height := 8,
          type := RoomType.room, connectedTo := [] }).read
      ((⟨[0], []⟩ : GenRefs).roomRefs.getD 0 7) =
      { id := RoomId.room 9, x := 5, y := 6, width := 7, height := 8,
        type := RoomType.room, connectedTo := [] }) := by
  refine ⟨fun g => List.map_id' g.roomRefs, fun h g k v => ?_, by decide⟩
  rw [show (snapshotOf g).roomRefs = g.roomRefs from List.map_id' g.roomRefs]

end DG
